import Mathlib

/-!
Verification development for the biosim island simulation
(`src/biosim/animal.py`, `src/biosim/landscape.py`, `src/biosim/island.py`).

The Python code is shallowly embedded: animals and cells become Lean
structures, every stateful method becomes a function from the old state to
the new state, and every call to the global random stream becomes an
explicit argument (a single draw, or an indexed stream `ℕ → ℝ` together
with a cursor that counts how many draws were consumed).  Python floats
are idealised as real numbers.  Methods that can raise `ValueError` or
`IndexError` return `Except Err` values (or pair the mutated state with an
`Option Err`, matching Python's in-place mutation that survives a raise).
-/

namespace Biosim

/-- Python exception kinds that the embedded code can raise. -/
inductive Err where
  | valueError : Err
  | indexError : Err
deriving DecidableEq

/-- Per-species class attributes of `Animal` (set in `Herbivore` and
`Carnivore`).  `Herbivore` leaves `DeltaPhiMax` unset (`None`); herbivores
never hunt, so the field is simply unused for them and is given a dummy
value in the herbivore record below. -/
structure AnimalParams where
  w_birth : ℝ
  sigma_birth : ℝ
  beta : ℝ
  eta : ℝ
  a_half : ℝ
  phi_age : ℝ
  w_half : ℝ
  phi_weight : ℝ
  mu : ℝ
  gamma : ℝ
  zeta : ℝ
  xi : ℝ
  omega : ℝ
  F : ℝ
  DeltaPhiMax : ℝ

/-- Instance state of one `Animal` object. -/
structure AnimalState where
  age : ℝ
  weight : ℝ
  position : ℤ × ℤ
  fitness : ℝ
  given_birth : Bool
  given_birth_year : Option ℤ
  death_status : Bool
  migration_status : Bool

noncomputable section

/-- `Animal.fitness_update`: the fitness value assigned for a given age and
weight.  Source: `if self._weight > 0: q_plus * q_minus else: 0` with
`q_plus = 1/(1+exp(phi_age*(age - a_half)))` and
`q_minus = 1/(1+exp(-phi_weight*(weight - w_half)))`. -/
def fitnessFormula (p : AnimalParams) (age weight : ℝ) : ℝ :=
  if 0 < weight then
    (1 / (1 + Real.exp (p.phi_age * (age - p.a_half)))) *
      (1 / (1 + Real.exp (-p.phi_weight * (weight - p.w_half))))
  else 0

/-- `Animal.fitness_update` as a state transformer. -/
def fitness_update (p : AnimalParams) (s : AnimalState) : AnimalState :=
  { s with fitness := fitnessFormula p s.age s.weight }

/-- `Animal.age_increase`: `self._age += 1; self.fitness_update()`. -/
def age_increase (p : AnimalParams) (s : AnimalState) : AnimalState :=
  fitness_update p { s with age := s.age + 1 }

/-- `Animal.yearly_weight_update`: `weight -= eta * weight`, clamped at 0,
then fitness is recomputed. -/
def yearly_weight_update (p : AnimalParams) (s : AnimalState) : AnimalState :=
  let w := s.weight - p.eta * s.weight
  fitness_update p { s with weight := if w < 0 then 0 else w }

/-- `Animal.update_death_status(eaten)`.  The `rand` argument is the value
of `random.random()` drawn in the `else` branch (ignored when `eaten` or
the flag is already set, in which case the source draws nothing). -/
def update_death_status (p : AnimalParams) (s : AnimalState) (eaten : Bool)
    (rand : ℝ) : AnimalState :=
  if eaten || s.death_status then { s with death_status := true }
  else if rand < p.omega * (1 - s.fitness) ∨ s.weight ≤ 0 then
    { s with death_status := true }
  else s

/-- `Animal.update_weight_post_eat(food_eaten)`: `none` models Python's
default `food_eaten=None` (weight gain `beta * F`); `some f` models an
explicit amount (weight gain `beta * f`).  Fitness is recomputed. -/
def update_weight_post_eat (p : AnimalParams) (s : AnimalState)
    (food_eaten : Option ℝ) : AnimalState :=
  match food_eaten with
  | none => fitness_update p { s with weight := s.weight + p.beta * p.F }
  | some f => fitness_update p { s with weight := s.weight + p.beta * f }

/-- `Animal.check_if_animal_migrates`: returns the updated animal and the
boolean result.  `rand` is the `random.random()` draw made in the `else`
branch. -/
def check_if_animal_migrates (p : AnimalParams) (s : AnimalState)
    (rand : ℝ) : AnimalState × Bool :=
  if s.migration_status then (s, false)
  else
    let s' := { s with migration_status := true }
    if rand < p.mu * s.fitness then (s', true) else (s', false)

/-- `Animal.__init__(age, weight, position)`: validation and then
`fitness_update`.  The tuple-shape check on `position` always passes in
the typed embedding.  The transient fields start as in the constructor. -/
def animalInit (p : AnimalParams) (age weight : ℝ) (pos : ℤ × ℤ) :
    Except Err AnimalState :=
  if age < 0 then .error .valueError
  else if weight ≤ 0 then .error .valueError
  else .ok (fitness_update p
    { age := age, weight := weight, position := pos, fitness := 0,
      given_birth := false, given_birth_year := none,
      death_status := false, migration_status := false })

/-- `Animal._already_given_birth_year(year)`. -/
def already_given_birth_year (s : AnimalState) (year : ℤ) : Bool :=
  match s.given_birth_year with
  | some y => y == year
  | none => false

/-- `Animal._check_birth_conditions(N, year)` as a proposition on the
explicit random draws: `rand` is the `random.random()` draw and `drawn`
the `random.normalvariate(w_birth, sigma_birth)` birth weight. -/
def CheckBirthConditions (p : AnimalParams) (s : AnimalState) (N year : ℤ)
    (rand drawn : ℝ) : Prop :=
  rand < min 1 (p.gamma * ((N : ℝ) - 1) * s.fitness) ∧
    p.zeta * (p.w_birth + p.sigma_birth) ≤ s.weight ∧
    already_given_birth_year s year = false ∧
    p.xi * drawn ≤ s.weight

instance (p : AnimalParams) (s : AnimalState) (N year : ℤ) (rand drawn : ℝ) :
    Decidable (CheckBirthConditions p s N year rand drawn) := by
  unfold CheckBirthConditions; infer_instance

/-- Result of `Animal.give_birth`: a new animal object, Python `None`, or a
raised exception. -/
inductive BirthResult where
  | baby (child : AnimalState) : BirthResult
  | none : BirthResult
  | error (e : Err) : BirthResult

/-- `Animal.give_birth(N, year)`.  On success the parent first pays the
weight cost `xi * drawn` and sets its given-birth flags, and only then the
offspring is constructed via `Animal.__init__` — which raises if the drawn
birth weight is non-positive, leaving the parent already mutated. -/
def give_birth (p : AnimalParams) (s : AnimalState) (N year : ℤ)
    (rand drawn : ℝ) : AnimalState × BirthResult :=
  if CheckBirthConditions p s N year rand drawn then
    let s' := { s with
                weight := s.weight - p.xi * drawn
                given_birth := true
                given_birth_year := some year }
    match animalInit p 0 drawn s.position with
    | .ok child => (s', .baby child)
    | .error e => (s', .error e)
  else ({ s with given_birth := false }, .none)

/-- `Animal.check_excessive_eating(weight_prey, eaten_in_total)`:
returns the prey weight if the potential total does not exceed `F`,
otherwise only the remainder `F - eaten_in_total`. -/
def check_excessive_eating (p : AnimalParams) (weight_prey eaten_in_total : ℝ) : ℝ :=
  if p.F < weight_prey + eaten_in_total then p.F - eaten_in_total else weight_prey

/-- Stable insertion of an indexed prey into a list kept in ascending
fitness order; ties keep the earlier-inserted element first, matching the
stability of Python's `sorted`. -/
def insertAscFitness (x : ℕ × AnimalState) :
    List (ℕ × AnimalState) → List (ℕ × AnimalState)
  | [] => [x]
  | y :: ys =>
    if x.2.fitness < y.2.fitness then x :: y :: ys else y :: insertAscFitness x ys

/-- `sorted(list_of_prey, key=lambda animal: animal.fitness)` on a list of
(index, animal) pairs: stable sort by ascending fitness. -/
def sortAscFitness (l : List (ℕ × AnimalState)) : List (ℕ × AnimalState) :=
  l.foldl (fun acc x => insertAscFitness x acc) []

/-- `prey.update_death_status(eaten=True)`: with `eaten` true the method
sets the death flag unconditionally and draws nothing. -/
def markEaten (s : AnimalState) : AnimalState :=
  { s with death_status := true }

/-- The `for prey in herbivores_hunting_order` loop of `Animal.hunt`.

Python iterates over a sorted list of references into the caller's prey
list; kills mutate the shared objects.  The embedding carries the original
prey list and pairs each sorted entry with its index in that list, writing
kill updates back through `List.set`.  `draws` is the shared random stream
and `k` the cursor of the next unused draw; one draw is consumed exactly
when the source calls `random.random()`.  Returns the hunter, the prey
list, and the new cursor. -/
def huntLoop (p : AnimalParams) (s : AnimalState) :
    List (ℕ × AnimalState) → List AnimalState → ℝ → (ℕ → ℝ) → ℕ →
      AnimalState × List AnimalState × ℕ
  | [], prey, _, _, k => (s, prey, k)
  | (i, pr) :: rest, prey, eaten_in_total, draws, k =>
    if pr.death_status then huntLoop p s rest prey eaten_in_total draws k
    else if s.fitness ≤ pr.fitness then huntLoop p s rest prey eaten_in_total draws k
    else if 0 < s.fitness - pr.fitness ∧ s.fitness - pr.fitness < p.DeltaPhiMax then
      if draws k < (s.fitness - pr.fitness) / p.DeltaPhiMax then
        let weight_gain := check_excessive_eating p pr.weight eaten_in_total
        let s' := update_weight_post_eat p s (some weight_gain)
        let prey' := prey.set i (markEaten pr)
        let eaten' := eaten_in_total + pr.weight
        if p.F ≤ eaten' then (s', prey', k + 1)
        else huntLoop p s' rest prey' eaten' draws (k + 1)
      else if p.F ≤ eaten_in_total then (s, prey, k + 1)
      else huntLoop p s rest prey eaten_in_total draws (k + 1)
    else
      let weight_gain := check_excessive_eating p pr.weight eaten_in_total
      let s' := update_weight_post_eat p s (some weight_gain)
      let prey' := prey.set i (markEaten pr)
      let eaten' := eaten_in_total + pr.weight
      if p.F ≤ eaten' then (s', prey', k)
      else huntLoop p s' rest prey' eaten' draws k

/-- `Animal.hunt(list_of_prey)`: sort by ascending fitness, then run the
hunting loop with `eaten_in_total = 0`. -/
def hunt (p : AnimalParams) (s : AnimalState) (list_of_prey : List AnimalState)
    (draws : ℕ → ℝ) (k : ℕ) : AnimalState × List AnimalState × ℕ :=
  huntLoop p s (sortAscFitness list_of_prey.enum) list_of_prey 0 draws k

/-! ### Landscape cells (`landscape.py`) -/

/-- Instance state of a `Landscape` cell: the per-species resident lists,
the food budget (`None` for land types without fodder), the landscape's
`f_max`, and the running resident counter. -/
structure CellState where
  herbs : List AnimalState
  carns : List AnimalState
  available_food : Option ℝ
  f_max : Option ℝ
  total_animals : ℤ

/-- The body of `Landscape.feeding_herbivores`: feed herbivores in list
order while food remains; `break` leaves the remaining animals untouched.
Returns the updated herbivores and remaining food.  `pH` is the herbivore
parameter set. -/
def feedHerbLoop (pH : AnimalParams) :
    List AnimalState → Option ℝ → List AnimalState × Option ℝ
  | [], food => ([], food)
  | h :: hs, food =>
    match food with
    | some f =>
      if pH.F ≤ f then
        let h' := update_weight_post_eat pH h none
        let (hs', food') := feedHerbLoop pH hs (some (f - pH.F))
        (h' :: hs', food')
      else if 0 < f then
        let h' := update_weight_post_eat pH h (some f)
        let (hs', food') := feedHerbLoop pH hs (some (f - f))
        (h' :: hs', food')
      else (h :: hs, some f)
    | none => (h :: hs, none)

/-- `Landscape.feeding_herbivores` on a cell. -/
def feeding_herbivores (pH : AnimalParams) (c : CellState) : CellState :=
  let (hs, food) := feedHerbLoop pH c.herbs c.available_food
  { c with herbs := hs, available_food := food }

/-- The loop of `Landscape.feeding_carnivores`: every carnivore in list
order hunts the cell's herbivore list (kills are visible to later
hunters).  Returns updated carnivores, herbivores, and the draw cursor. -/
def feedCarnLoop (pC : AnimalParams) :
    List AnimalState → List AnimalState → (ℕ → ℝ) → ℕ →
      List AnimalState × List AnimalState × ℕ
  | [], herbs, _, k => ([], herbs, k)
  | c :: cs, herbs, draws, k =>
    let (c', herbs', k') := hunt pC c herbs draws k
    let (cs', herbs'', k'') := feedCarnLoop pC cs herbs' draws k'
    (c' :: cs', herbs'', k'')

/-- `Landscape.feeding_carnivores` on a cell. -/
def feeding_carnivores (pC : AnimalParams) (c : CellState) (draws : ℕ → ℝ)
    (k : ℕ) : CellState × ℕ :=
  let (cs, hs, k') := feedCarnLoop pC c.carns c.herbs draws k
  ({ c with carns := cs, herbs := hs }, k')

/-- Stable insertion for descending fitness (ties keep the earlier element
first), matching `sorted(..., reverse=True)`. -/
def insertDescFitness (x : AnimalState) : List AnimalState → List AnimalState
  | [] => [x]
  | y :: ys =>
    if y.fitness < x.fitness then x :: y :: ys else y :: insertDescFitness x ys

/-- Stable sort by descending fitness. -/
def sortDescFitness (l : List AnimalState) : List AnimalState :=
  l.foldl (fun acc x => insertDescFitness x acc) []

/-- `random.shuffle` modeled by an oracle permutation given as a list of
indices into the shuffled list. -/
def applyPerm (perm : List ℕ) (l : List α) : List α :=
  perm.filterMap fun i => l.get? i

/-- `Landscape.update_animal_sorting`: herbivores sorted by descending
fitness, carnivores shuffled (here: permuted by the oracle `perm`). -/
def update_animal_sorting (c : CellState) (perm : List ℕ) : CellState :=
  { c with herbs := sortDescFitness c.herbs, carns := applyPerm perm c.carns }

/-- Per-animal flag resets done by `Landscape.yearly_updates`. -/
def resetYearFlags (s : AnimalState) : AnimalState :=
  { s with given_birth := false, migration_status := false }

/-- `Landscape.yearly_updates`: food regenerates to `f_max` and every
resident's given-birth and migration flags are cleared. -/
def yearly_updates (c : CellState) : CellState :=
  { c with
    available_food := c.f_max
    herbs := c.herbs.map resetYearFlags
    carns := c.carns.map resetYearFlags }

/-- `Landscape.update_population(herb_only=True)`: drop dead herbivores. -/
def update_population_herb_only (c : CellState) : CellState :=
  { c with herbs := c.herbs.filter (fun a => !a.death_status) }

/-- The per-species loop of `Landscape.procreation`: each animal calls
`give_birth(N, year)`, consuming one `(random.random(), normalvariate)`
draw pair; newborns are collected separately and appended by the caller.
A `ValueError` raised inside `give_birth` propagates. -/
def procreateList (p : AnimalParams) (N year : ℤ) (draws : ℕ → ℝ × ℝ) :
    List AnimalState → ℕ → Except Err (List AnimalState × List AnimalState × ℕ)
  | [], k => .ok ([], [], k)
  | a :: rest, k =>
    let (r, d) := draws k
    match give_birth p a N year r d with
    | (_, .error e) => .error e
    | (a', .baby b) =>
      match procreateList p N year draws rest (k + 1) with
      | .ok (rest', babies, k') => .ok (a' :: rest', b :: babies, k')
      | .error e => .error e
    | (a', .none) =>
      match procreateList p N year draws rest (k + 1) with
      | .ok (rest', babies, k') => .ok (a' :: rest', babies, k')
      | .error e => .error e

/-- `Landscape.procreation(year)`: snapshot per-species counts, run the
per-animal loop for herbivores then carnivores, append newborns, and bump
the resident counter once per successful birth. -/
def procreation (pH pC : AnimalParams) (c : CellState) (year : ℤ)
    (draws : ℕ → ℝ × ℝ) (k : ℕ) : Except Err (CellState × ℕ) :=
  match procreateList pH (c.herbs.length : ℤ) year draws c.herbs k with
  | .error e => .error e
  | .ok (hs, hBabies, k1) =>
    match procreateList pC (c.carns.length : ℤ) year draws c.carns k1 with
    | .error e => .error e
    | .ok (cs, cBabies, k2) =>
      .ok ({ c with
             herbs := hs ++ hBabies
             carns := cs ++ cBabies
             total_animals := c.total_animals + hBabies.length + cBabies.length },
           k2)

/-! ### Island year loop, phase 1 (`island.py`) -/

/-- Tags for the `Landscape` methods invoked by phase 1 of
`Island.year_loop` on one passable cell. -/
inductive CellOp where
  | updateAnimalSorting : CellOp
  | yearlyUpdates : CellOp
  | feedingHerbivores : CellOp
  | feedingCarnivores : CellOp
  | updatePopulationHerbOnly : CellOp
  | procreationOp : CellOp
deriving DecidableEq

/-- Random-oracle inputs consumed by phase 1 on one cell. -/
structure Phase1Oracle where
  carnPerm : List ℕ
  huntDraws : ℕ → ℝ
  birthDraws : ℕ → ℝ × ℝ

/-- The body of the first `for land_type in self.complete_map.values()`
loop of `Island.year_loop`, for a single passable cell, together with the
trace of `Landscape` methods it invokes, in invocation order. -/
def year_loop_phase1_cell (pH pC : AnimalParams) (c : CellState) (year : ℤ)
    (o : Phase1Oracle) : Except Err CellState × List CellOp :=
  let c1 := update_animal_sorting c o.carnPerm
  let c2 := yearly_updates c1
  let c3 := feeding_herbivores pH c2
  let c4 := (feeding_carnivores pC c3 o.huntDraws 0).1
  let c5 := update_population_herb_only c4
  let res := procreation pH pC c5 year o.birthDraws 0
  ((res.map Prod.fst),
   [.updateAnimalSorting, .yearlyUpdates, .feedingHerbivores,
    .feedingCarnivores, .updatePopulationHerbOnly, .procreationOp])

/-- The per-cell phase-1 order of `Landscape` method calls asserted by the
specification (§4.3 step 1): reset_for_new_year (`yearly_updates`) first,
then order_residents_for_feeding (`update_animal_sorting`), then feeding,
compaction and procreation.  Stated from the spec's words, to be compared
with the order the code actually uses. -/
def claimedPhase1Order : List CellOp :=
  [.yearlyUpdates, .updateAnimalSorting, .feedingHerbivores,
   .feedingCarnivores, .updatePopulationHerbOnly, .procreationOp]

/-- `Herbivore` class attributes (the `DeltaPhiMax` slot is `None` in the
source and unused by herbivore behaviour; it is set to 0 here). -/
def herbParams : AnimalParams :=
  { w_birth := 8, sigma_birth := 3 / 2, beta := 9 / 10, eta := 1 / 20,
    a_half := 40, phi_age := 3 / 5, w_half := 10, phi_weight := 1 / 10,
    mu := 1 / 4, gamma := 1 / 5, zeta := 7 / 2, xi := 6 / 5,
    omega := 2 / 5, F := 10, DeltaPhiMax := 0 }

/-- `Carnivore` class attributes. -/
def carnParams : AnimalParams :=
  { w_birth := 6, sigma_birth := 1, beta := 3 / 4, eta := 1 / 8,
    a_half := 40, phi_age := 3 / 10, w_half := 4, phi_weight := 2 / 5,
    mu := 2 / 5, gamma := 4 / 5, zeta := 7 / 2, xi := 11 / 10,
    omega := 4 / 5, F := 50, DeltaPhiMax := 10 }

end

/-! ### Island map construction (`Island.build_island`) -/

/-- Python `str.splitlines`, specialised to `'\n'` separators: the helper
returns the first line together with the remaining lines of the tail. -/
def splitLinesAux : List Char → List Char × List (List Char)
  | [] => ([], [])
  | c :: cs =>
    let (line, rest) := splitLinesAux cs
    if c = '\n' then ([], line :: rest) else (c :: line, rest)

/-- Python `str.splitlines`: the empty string gives no lines, and a string
ending in `'\n'` does not produce a trailing empty line. -/
def pySplitlines (s : List Char) : List (List Char) :=
  match s with
  | [] => []
  | _ =>
    let (line, rest) := splitLinesAux s
    if s.getLast? = some '\n' then (line :: rest).dropLast else line :: rest

/-- The landscape letters recognised by `Island.land_letter_map`
(`get_landscape_letter` of `Water`, `Highland`, `Lowland`, `Desert`). -/
def legalLandLetters : List Char := ['W', 'H', 'L', 'D']

/-- `Island._check_map_legal_characters`: every non-newline character of
the raw map string must be a recognised landscape letter. -/
def check_map_legal_characters (island_map : List Char) : Except Err Unit :=
  if (island_map.filter (fun c => c ≠ '\n')).all
      (fun c => legalLandLetters.contains c) then .ok ()
  else .error .valueError

/-- `Island._check_map_line_length`: every line must have the length of
the first line.  `lines[0]` on an empty line list raises `IndexError`. -/
def check_map_line_length : List (List Char) → Except Err Unit
  | [] => .error .indexError
  | l0 :: rest =>
    if rest.all (fun l => l.length = l0.length) then .ok ()
    else .error .valueError

/-- One full-row water check of `Island._check_map_edges` (used for the
first and last map line). -/
def rowAllWater (l : List Char) : Except Err Unit :=
  if l.all (fun c => c = 'W') then .ok () else .error .valueError

/-- The loop over `lines[1:-1]` of `Island._check_map_edges`: each middle
line must start and end with `'W'`; indexing `line[0]` on an empty middle
line raises `IndexError`.  (`getLastD` only sees nonempty lists here.) -/
def middleRowEdges : List (List Char) → Except Err Unit
  | [] => .ok ()
  | l :: ls =>
    match l with
    | [] => .error .indexError
    | c :: t =>
      if c ≠ 'W' then .error .valueError
      else if (c :: t).getLastD 'W' ≠ 'W' then .error .valueError
      else middleRowEdges ls

/-- `Island._check_map_edges`: first line all water (`lines[0]`, raising
`IndexError` on an empty list), last line all water (`lines[-1]`), middle
lines (`lines[1:-1]`) bounded by water; the first raised error wins. -/
def check_map_edges : List (List Char) → Except Err Unit
  | [] => .error .indexError
  | l0 :: rest =>
    match rowAllWater l0 with
    | .error e => .error e
    | .ok _ =>
      match rowAllWater (rest.getLastD l0) with
      | .error e => .error e
      | .ok _ => middleRowEdges ((l0 :: rest).dropLast.drop 1)

/-- `Island.build_island`: the three validation passes run in source
order with the first raised error propagating; afterwards the coordinate
dictionary is built, which cannot fail for a validated map, so the
embedding returns `()`. -/
def build_island (island_map : List Char) : Except Err Unit :=
  match check_map_legal_characters island_map with
  | .error e => .error e
  | .ok _ =>
    match check_map_line_length (pySplitlines island_map) with
    | .error e => .error e
    | .ok _ => check_map_edges (pySplitlines island_map)

/-- The claim's first failure condition, stated from the spec's words: the
layout contains an unrecognised landscape character. -/
def SpecIllegalChar (island_map : List Char) : Prop :=
  ∃ c ∈ island_map, c ≠ '\n' ∧ c ∉ legalLandLetters

/-- The claim's second failure condition, stated from the spec's words:
two rows of the layout have different lengths. -/
def SpecUnequalRows (island_map : List Char) : Prop :=
  ∃ l1 ∈ pySplitlines island_map, ∃ l2 ∈ pySplitlines island_map,
    l1.length ≠ l2.length

/-- The claim's third failure condition, stated from the spec's words:
some border cell of the layout is not the impassable Water kind.  Border
cells are every cell of the first and last row and the first and last
cell of each row in between. -/
def SpecBadBorder (island_map : List Char) : Prop :=
  (∃ c ∈ (pySplitlines island_map).headD [], c ≠ 'W') ∨
    (∃ c ∈ (pySplitlines island_map).getLastD [], c ≠ 'W') ∨
    (∃ l ∈ (pySplitlines island_map).dropLast.drop 1,
      l.head? ≠ some 'W' ∧ l ≠ [] ∨ l.getLast? ≠ some 'W' ∧ l ≠ [])

/-- A 3×3 layout with an all-water border and one passable interior cell
(`"WWW\nWLW\nWWW"`). -/
def mapAllWaterBorder : List Char :=
  ['W', 'W', 'W', '\n', 'W', 'L', 'W', '\n', 'W', 'W', 'W']

/-- A 3×3 layout with a passable cell on the border
(`"WWW\nLLW\nWWW"`). -/
def mapPassableBorder : List Char :=
  ['W', 'W', 'W', '\n', 'L', 'L', 'W', '\n', 'W', 'W', 'W']

/-! ### Species parameter updates (`Animal.update_attributes`) -/

/-- The class-attribute dictionary of `Carnivore` (the names returned by
`Animal.get_attributes`), as exact rationals. -/
structure SpeciesAttrs where
  w_birth : ℚ
  sigma_birth : ℚ
  beta : ℚ
  eta : ℚ
  a_half : ℚ
  phi_age : ℚ
  w_half : ℚ
  phi_weight : ℚ
  mu : ℚ
  gamma : ℚ
  zeta : ℚ
  xi : ℚ
  omega : ℚ
  F : ℚ
  DeltaPhiMax : ℚ
deriving DecidableEq

/-- The attribute names present in `Carnivore.__dict__` and visible to
`update_attributes` (numeric parameters plus the species tag). -/
def carnAttrNames : List String :=
  ["w_birth", "sigma_birth", "beta", "eta", "a_half", "phi_age", "w_half",
   "phi_weight", "mu", "gamma", "zeta", "xi", "omega", "F", "DeltaPhiMax",
   "species"]

/-- `setattr(cls, attribute_name, new_value)` for the numeric attributes
(`species` never reaches this point: the method raises first). -/
def setAttr (a : SpeciesAttrs) (n : String) (v : ℚ) : SpeciesAttrs :=
  if n = "w_birth" then { a with w_birth := v }
  else if n = "sigma_birth" then { a with sigma_birth := v }
  else if n = "beta" then { a with beta := v }
  else if n = "eta" then { a with eta := v }
  else if n = "a_half" then { a with a_half := v }
  else if n = "phi_age" then { a with phi_age := v }
  else if n = "w_half" then { a with w_half := v }
  else if n = "phi_weight" then { a with phi_weight := v }
  else if n = "mu" then { a with mu := v }
  else if n = "gamma" then { a with gamma := v }
  else if n = "zeta" then { a with zeta := v }
  else if n = "xi" then { a with xi := v }
  else if n = "omega" then { a with omega := v }
  else if n = "F" then { a with F := v }
  else if n = "DeltaPhiMax" then { a with DeltaPhiMax := v }
  else a

/-- `Animal.update_attributes(update_attributes_dict)` for `Carnivore`:
entries are validated and applied one at a time; the first invalid entry
raises `ValueError`, keeping every change applied before it (the class is
mutated in place).  Returns the attributes as mutated so far, paired with
the raised error if any. -/
def update_attributes (a : SpeciesAttrs) :
    List (String × ℚ) → SpeciesAttrs × Option Err
  | [] => (a, none)
  | (n, v) :: rest =>
    if n ∉ carnAttrNames then (a, some .valueError)
    else if n = "species" then (a, some .valueError)
    else if n = "eta" ∧ 1 < v then (a, some .valueError)
    else if n = "DeltaPhiMax" ∧ v ≤ 0 then (a, some .valueError)
    else if v < 0 then (a, some .valueError)
    else update_attributes (setAttr a n v) rest

/-- `Carnivore`'s default class-attribute values. -/
def carnDefaultAttrs : SpeciesAttrs :=
  { w_birth := 6, sigma_birth := 1, beta := 3 / 4, eta := 1 / 8,
    a_half := 40, phi_age := 3 / 10, w_half := 4, phi_weight := 2 / 5,
    mu := 2 / 5, gamma := 4 / 5, zeta := 7 / 2, xi := 11 / 10,
    omega := 4 / 5, F := 50, DeltaPhiMax := 10 }

/-! ### Invariants and concrete states used in the theorems below -/

noncomputable section

/-- The organism invariant of the specification: non-negative weight and
fitness in the unit interval. -/
def AnimalWF (s : AnimalState) : Prop :=
  0 ≤ s.weight ∧ 0 ≤ s.fitness ∧ s.fitness ≤ 1

/-- Position `j` of the animal list holds a dead animal. -/
def DeadAt (l : List AnimalState) (j : ℕ) : Prop :=
  ∃ a, l.get? j = some a ∧ a.death_status = true

/-- A well-formed live animal with rational field values. -/
def wfState : AnimalState :=
  { age := 5, weight := 20, position := (2, 2), fitness := 1 / 2,
    given_birth := false, given_birth_year := none, death_status := false,
    migration_status := false }

/-- A dead animal. -/
def deadState : AnimalState :=
  { wfState with death_status := true }

/-- A carnivore hunter with high fitness. -/
def hunterState : AnimalState :=
  { age := 3, weight := 30, position := (2, 2), fitness := 9 / 10,
    given_birth := false, given_birth_year := none, death_status := false,
    migration_status := false }

/-- A heavy, weak herbivore prey. -/
def preyWeak : AnimalState :=
  { age := 9, weight := 60, position := (2, 2), fitness := 3 / 10,
    given_birth := false, given_birth_year := none, death_status := false,
    migration_status := false }

/-- A prey fitter than `hunterState`. -/
def preyStrong : AnimalState :=
  { age := 1, weight := 7, position := (2, 2), fitness := 19 / 20,
    given_birth := false, given_birth_year := none, death_status := false,
    migration_status := false }

/-- A herbivore parent comfortably above the birth-weight thresholds. -/
def birthParent : AnimalState :=
  { age := 2, weight := 40, position := (2, 2), fitness := 1 / 2,
    given_birth := false, given_birth_year := none, death_status := false,
    migration_status := false }

/-- A carnivore parent comfortably above the birth-weight thresholds. -/
def birthParentC : AnimalState :=
  { age := 3, weight := 50, position := (1, 1), fitness := 3 / 4,
    given_birth := false, given_birth_year := none, death_status := false,
    migration_status := false }

/-- The all-zero random stream. -/
def zeroDraws : ℕ → ℝ := fun _ => 0

/-- The all-zero pair stream (for birth draws). -/
def zeroPairDraws : ℕ → ℝ × ℝ := fun _ => (0, 0)

/-- An empty passable cell with no fodder. -/
def emptyCell : CellState :=
  { herbs := [], carns := [], available_food := none, f_max := none,
    total_animals := 0 }

/-- A fixed oracle for phase-1 runs. -/
def trivialOracle : Phase1Oracle :=
  { carnPerm := [], huntDraws := fun _ => 0, birthDraws := fun _ => (0, 0) }

end

/-! ## Helper lemmas -/

namespace Lemmas

lemma fitness_update_death (p : AnimalParams) (s : AnimalState) :
    (fitness_update p s).death_status = s.death_status := rfl

lemma update_weight_post_eat_death (p : AnimalParams) (s : AnimalState)
    (f : Option ℝ) :
    (update_weight_post_eat p s f).death_status = s.death_status := by
  cases f <;> rfl

lemma huntLoop_hunter_death (p : AnimalParams) :
    ∀ (order : List (ℕ × AnimalState)) (s : AnimalState)
      (prey : List AnimalState) (eaten : ℝ) (draws : ℕ → ℝ) (k : ℕ),
      ((huntLoop p s order prey eaten draws k).1).death_status = s.death_status := by
  intro order
  induction order with
  | nil => intro s prey eaten draws k; rfl
  | cons hd rest ih =>
    intro s prey eaten draws k
    obtain ⟨i, pr⟩ := hd
    simp only [huntLoop]
    split_ifs <;> simp [ih, update_weight_post_eat_death]

lemma DeadAt_set (l : List AnimalState) (i j : ℕ) (a : AnimalState)
    (ha : a.death_status = true) (h : DeadAt l j) : DeadAt (l.set i a) j := by
  obtain ⟨b, hb, hbd⟩ := h
  by_cases hij : i = j
  · subst hij
    refine ⟨a, ?_, ha⟩
    rw [List.get?_set_eq, hb]
    rfl
  · exact ⟨b, by rw [List.get?_set_ne _ _ hij]; exact hb, hbd⟩

lemma huntLoop_prey_dead (p : AnimalParams) :
    ∀ (order : List (ℕ × AnimalState)) (s : AnimalState)
      (prey : List AnimalState) (eaten : ℝ) (draws : ℕ → ℝ) (k j : ℕ),
      DeadAt prey j → DeadAt ((huntLoop p s order prey eaten draws k).2.1) j := by
  intro order
  induction order with
  | nil => intro s prey eaten draws k j h; exact h
  | cons hd rest ih =>
    intro s prey eaten draws k j h
    obtain ⟨i, pr⟩ := hd
    simp only [huntLoop]
    split_ifs <;>
      first
        | exact h
        | exact ih _ _ _ _ _ _ h
        | exact DeadAt_set _ _ _ _ rfl h
        | exact ih _ _ _ _ _ _ (DeadAt_set _ _ _ _ rfl h)

end Lemmas

open Lemmas

/-- C6: The death flag is monotonic: a dead animal stays dead under every
operation — ageing, annual weight decay, feeding weight gain, any further
`update_death_status` call, giving birth, the migration check, a fitness
recomputation, the annual flag reset, and hunting (for the hunter, and
positionally for every already-dead prey in the hunted list). -/
theorem death_flag_monotonic (p : AnimalParams) (s : AnimalState)
    (h : s.death_status = true) :
    (age_increase p s).death_status = true ∧
    (yearly_weight_update p s).death_status = true ∧
    (∀ food, (update_weight_post_eat p s food).death_status = true) ∧
    (∀ eaten rand, (update_death_status p s eaten rand).death_status = true) ∧
    (∀ N year rand drawn, ((give_birth p s N year rand drawn).1).death_status = true) ∧
    (∀ rand, ((check_if_animal_migrates p s rand).1).death_status = true) ∧
    (fitness_update p s).death_status = true ∧
    (resetYearFlags s).death_status = true ∧
    (∀ prey draws k, ((hunt p s prey draws k).1).death_status = true) ∧
    (∀ pred prey draws k j, DeadAt prey j →
      DeadAt ((hunt p pred prey draws k).2.1) j) := by
  refine ⟨h, h, ?_, ?_, ?_, ?_, h, h, ?_, ?_⟩
  · intro food; rw [update_weight_post_eat_death]; exact h
  · intro eaten rand
    unfold update_death_status
    split_ifs <;> simp [h]
  · intro N year rand drawn
    unfold give_birth
    split_ifs
    · cases hinit : animalInit p 0 drawn s.position <;> simp [hinit, h]
    · exact h
  · intro rand
    unfold check_if_animal_migrates
    split_ifs <;> simp [h]
  · intro prey draws k
    rw [hunt, huntLoop_hunter_death]
    exact h
  · intro pred prey draws k j hj
    exact huntLoop_prey_dead p _ _ _ _ _ _ _ hj

/-- Witness for C6 at concrete inputs. -/
theorem death_flag_monotonic_witness :
    (age_increase herbParams deadState).death_status = true ∧
    (update_death_status herbParams deadState false (1 / 2)).death_status = true ∧
    DeadAt ((hunt carnParams hunterState [deadState] zeroDraws 0).2.1) 0 := by
  have h : deadState.death_status = true := rfl
  have main := death_flag_monotonic herbParams deadState h
  refine ⟨main.1, main.2.2.2.1 false (1 / 2), ?_⟩
  exact (death_flag_monotonic carnParams deadState h).2.2.2.2.2.2.2.2.2
    hunterState [deadState] zeroDraws 0 0 ⟨deadState, rfl, rfl⟩

/-- C7: `check_if_animal_migrates` is idempotent per year: with the
migrated flag set it returns `false` and leaves the state unchanged;
with the flag clear it sets the flag and returns `true` exactly when the
draw is below `mu * fitness`; and any second call right after a first
call returns `false` without changing the state. -/
theorem migration_check_idempotent (p : AnimalParams) (s : AnimalState) :
    (s.migration_status = true →
      ∀ rand, check_if_animal_migrates p s rand = (s, false)) ∧
    (s.migration_status = false → ∀ rand,
      (check_if_animal_migrates p s rand).1 = { s with migration_status := true } ∧
      ((check_if_animal_migrates p s rand).2 = true ↔ rand < p.mu * s.fitness)) ∧
    (∀ rand rand',
      check_if_animal_migrates p ((check_if_animal_migrates p s rand).1) rand'
        = ((check_if_animal_migrates p s rand).1, false)) := by
  refine ⟨?_, ?_, ?_⟩
  · intro h rand
    unfold check_if_animal_migrates
    rw [if_pos h]
  · intro h rand
    unfold check_if_animal_migrates
    rw [if_neg (by rw [h]; exact Bool.false_ne_true)]
    constructor
    · split_ifs <;> rfl
    · split_ifs with hr
      · simpa using hr
      · simpa using hr
  · intro rand rand'
    have hstat : ((check_if_animal_migrates p s rand).1).migration_status = true := by
      unfold check_if_animal_migrates
      split_ifs with h1 h2 <;> simp_all
    conv_lhs => rw [check_if_animal_migrates]
    rw [if_pos hstat]

/-- Witness for C7 at concrete inputs. -/
theorem migration_check_idempotent_witness :
    (check_if_animal_migrates herbParams wfState 0).1
        = { wfState with migration_status := true } ∧
    ((check_if_animal_migrates herbParams wfState 0).2 = true ↔
      (0 : ℝ) < herbParams.mu * wfState.fitness) ∧
    check_if_animal_migrates herbParams
        ((check_if_animal_migrates herbParams wfState 0).1) (1 / 2)
      = ((check_if_animal_migrates herbParams wfState 0).1, false) := by
  have main := migration_check_idempotent herbParams wfState
  have h2 := main.2.1 rfl 0
  exact ⟨h2.1, h2.2, main.2.2 0 (1 / 2)⟩

/-- C9: `update_attributes` raises `ValueError` for an unknown attribute
name, for any attempt to change the species tag, for `eta` outside
`[0, 1]`, for `DeltaPhiMax ≤ 0` and for any negative value; and the update
is non-atomic: in the concrete two-entry update the first (valid) entry
stays applied when the second entry fails validation. -/
theorem update_attributes_validation :
    (∀ (a : SpeciesAttrs) (n : String) (v : ℚ) rest, n ∉ carnAttrNames →
      update_attributes a ((n, v) :: rest) = (a, some .valueError)) ∧
    (∀ (a : SpeciesAttrs) (v : ℚ) rest,
      update_attributes a (("species", v) :: rest) = (a, some .valueError)) ∧
    (∀ (a : SpeciesAttrs) (v : ℚ) rest, v < 0 ∨ 1 < v →
      update_attributes a (("eta", v) :: rest) = (a, some .valueError)) ∧
    (∀ (a : SpeciesAttrs) (v : ℚ) rest, v ≤ 0 →
      update_attributes a (("DeltaPhiMax", v) :: rest) = (a, some .valueError)) ∧
    (∀ (a : SpeciesAttrs) (n : String) (v : ℚ) rest, v < 0 →
      (update_attributes a ((n, v) :: rest)).2 = some .valueError) ∧
    ((update_attributes carnDefaultAttrs [("gamma", 2), ("eta", 7)]).1.gamma = 2 ∧
      (update_attributes carnDefaultAttrs [("gamma", 2), ("eta", 7)]).1.eta
        = carnDefaultAttrs.eta ∧
      (update_attributes carnDefaultAttrs [("gamma", 2), ("eta", 7)]).2
        = some .valueError) := by
  refine ⟨?_, ?_, ?_, ?_, ?_, ?_⟩
  · intro a n v rest h
    rw [update_attributes, if_pos h]
  · intro a v rest
    rw [update_attributes, if_neg (by decide), if_pos rfl]
  · intro a v rest hv
    rcases hv with hv | hv
    · rw [update_attributes, if_neg (by decide), if_neg (by decide),
        if_neg (fun hh => absurd hv (by linarith [hh.2])),
        if_neg (fun hh => absurd hh.1 (by decide)), if_pos hv]
    · rw [update_attributes, if_neg (by decide), if_neg (by decide),
        if_pos ⟨rfl, hv⟩]
  · intro a v rest hv
    rw [update_attributes, if_neg (by decide), if_neg (by decide),
      if_neg (fun hh => absurd hh.1 (by decide)), if_pos ⟨rfl, hv⟩]
  · intro a n v rest hv
    rw [update_attributes]
    split_ifs
    all_goals rfl
  · exact ⟨rfl, rfl, rfl⟩

/-- Witness for C9 at concrete inputs. -/
theorem update_attributes_validation_witness :
    update_attributes carnDefaultAttrs [("bogus", 1)]
        = (carnDefaultAttrs, some .valueError) ∧
    update_attributes carnDefaultAttrs [("species", 0)]
        = (carnDefaultAttrs, some .valueError) ∧
    update_attributes carnDefaultAttrs [("eta", 2)]
        = (carnDefaultAttrs, some .valueError) ∧
    update_attributes carnDefaultAttrs [("eta", -1)]
        = (carnDefaultAttrs, some .valueError) ∧
    update_attributes carnDefaultAttrs [("DeltaPhiMax", 0)]
        = (carnDefaultAttrs, some .valueError) ∧
    (update_attributes carnDefaultAttrs [("omega", -3)]).2 = some .valueError := by
  have main := update_attributes_validation
  exact ⟨main.1 _ _ 1 [] (by decide), main.2.1 _ 0 [],
    main.2.2.1 _ 2 [] (Or.inr (by norm_num)),
    main.2.2.1 _ (-1) [] (Or.inl (by norm_num)),
    main.2.2.2.1 _ 0 [] le_rfl,
    main.2.2.2.2.1 _ "omega" (-3) [] (by norm_num)⟩

/-- C5 counterexample: on a concrete cell, phase 1 of the year loop does
not invoke the `Landscape` methods in the order the specification claims
(the spec puts `yearly_updates` before `update_animal_sorting`). -/
theorem phase1_order_counterexample :
    (year_loop_phase1_cell herbParams carnParams emptyCell 0 trivialOracle).2
      ≠ claimedPhase1Order := by
  decide

/-- C5 (amended): phase 1 of `Island.year_loop` runs, per passable cell,
`update_animal_sorting`, then `yearly_updates`, then
`feeding_herbivores`, then `feeding_carnivores`, then
`update_population(herb_only=True)`, then `procreation(year)` — i.e. the
spec's order with its first two steps swapped.  The first conjunct is the
invocation trace, the second states that the resulting cell is the
composition of the six per-cell operations in that order. -/
theorem phase1_order (pH pC : AnimalParams) (c : CellState) (year : ℤ)
    (o : Phase1Oracle) :
    (year_loop_phase1_cell pH pC c year o).2
      = [CellOp.updateAnimalSorting, CellOp.yearlyUpdates,
         CellOp.feedingHerbivores, CellOp.feedingCarnivores,
         CellOp.updatePopulationHerbOnly, CellOp.procreationOp] ∧
    (year_loop_phase1_cell pH pC c year o).1
      = (procreation pH pC
          (update_population_herb_only
            ((feeding_carnivores pC
              (feeding_herbivores pH
                (yearly_updates (update_animal_sorting c o.carnPerm)))
              o.huntDraws 0).1))
          year o.birthDraws 0).map Prod.fst :=
  ⟨rfl, rfl⟩

/-- C10: with a negative drawn birth weight all four birth gates can still
pass; `give_birth` then mutates the parent (weight cost paid — here a
weight gain, since the cost `xi * drawn` is negative — and given-birth
flags set) and only afterwards fails in the offspring constructor with a
`ValueError`, leaving the parent mutated. -/
theorem negative_birth_weight_raises :
    CheckBirthConditions herbParams birthParent 5 3 0 (-1) ∧
    (give_birth herbParams birthParent 5 3 0 (-1)).2 = BirthResult.error .valueError ∧
    ((give_birth herbParams birthParent 5 3 0 (-1)).1).given_birth = true ∧
    ((give_birth herbParams birthParent 5 3 0 (-1)).1).given_birth_year = some 3 ∧
    ((give_birth herbParams birthParent 5 3 0 (-1)).1).weight
      = birthParent.weight - herbParams.xi * (-1) := by
  have hc : CheckBirthConditions herbParams birthParent 5 3 0 (-1) := by
    refine ⟨?_, ?_, rfl, ?_⟩
    · norm_num [herbParams, birthParent, lt_min_iff]
    · norm_num [herbParams, birthParent]
    · norm_num [herbParams, birthParent]
  have hinit : animalInit herbParams 0 (-1) birthParent.position
      = .error .valueError := by
    rw [animalInit, if_neg (by norm_num), if_pos (by norm_num)]
  refine ⟨hc, ?_, ?_, ?_, ?_⟩ <;>
    · rw [give_birth, if_pos hc, hinit]

/-- C2 counterexample: a concrete parent, favourable draw and negative
drawn birth weight for which all four birth gates hold and yet
`give_birth` does not produce an offspring (it raises instead), refuting
"offspring if and only if all four gates hold". -/
theorem give_birth_iff_counterexample :
    CheckBirthConditions carnParams birthParentC 4 1 0 (-2) ∧
    ∀ c, (give_birth carnParams birthParentC 4 1 0 (-2)).2 ≠ BirthResult.baby c := by
  have hc : CheckBirthConditions carnParams birthParentC 4 1 0 (-2) := by
    refine ⟨?_, ?_, rfl, ?_⟩
    · norm_num [carnParams, birthParentC, lt_min_iff]
    · norm_num [carnParams, birthParentC]
    · norm_num [carnParams, birthParentC]
  have hinit : animalInit carnParams 0 (-2) birthParentC.position
      = .error .valueError := by
    rw [animalInit, if_neg (by norm_num), if_pos (by norm_num)]
  refine ⟨hc, fun c => ?_⟩
  rw [give_birth, if_pos hc, hinit]
  simp

/-- C2 (amended): `give_birth(N, year)` produces an offspring iff all four
gates hold *and* the drawn birth weight is positive.  When the gates hold
and the drawn weight is positive, the offspring has age 0, weight equal
to the drawn weight and the parent's position, the parent's weight drops
by exactly `xi * drawn` and its given-birth flags are set; when the gates
hold but the drawn weight is non-positive, a `ValueError` is raised after
the same parent mutation; when a gate fails, the flag is set false and
`None` is returned. -/
theorem give_birth_gates (p : AnimalParams) (s : AnimalState) (N year : ℤ)
    (rand drawn : ℝ) :
    ((∃ c, (give_birth p s N year rand drawn).2 = BirthResult.baby c) ↔
      (CheckBirthConditions p s N year rand drawn ∧ 0 < drawn)) ∧
    (CheckBirthConditions p s N year rand drawn → 0 < drawn →
      give_birth p s N year rand drawn
        = ({ s with
             weight := s.weight - p.xi * drawn
             given_birth := true
             given_birth_year := some year },
           BirthResult.baby (fitness_update p
             { age := 0, weight := drawn, position := s.position, fitness := 0,
               given_birth := false, given_birth_year := none,
               death_status := false, migration_status := false }))) ∧
    (CheckBirthConditions p s N year rand drawn → drawn ≤ 0 →
      give_birth p s N year rand drawn
        = ({ s with
             weight := s.weight - p.xi * drawn
             given_birth := true
             given_birth_year := some year },
           BirthResult.error .valueError)) ∧
    (¬ CheckBirthConditions p s N year rand drawn →
      give_birth p s N year rand drawn
        = ({ s with given_birth := false }, BirthResult.none)) := by
  have hpos : ∀ hd : 0 < drawn,
      animalInit p 0 drawn s.position = .ok (fitness_update p
        { age := 0, weight := drawn, position := s.position, fitness := 0,
          given_birth := false, given_birth_year := none,
          death_status := false, migration_status := false }) := by
    intro hd
    rw [animalInit, if_neg (by norm_num), if_neg (by linarith)]
  have hneg : ∀ _ : drawn ≤ 0,
      animalInit p 0 drawn s.position = .error .valueError := by
    intro hd
    rw [animalInit, if_neg (by norm_num), if_pos (by linarith)]
  have h2 : CheckBirthConditions p s N year rand drawn → 0 < drawn →
      give_birth p s N year rand drawn
        = ({ s with
             weight := s.weight - p.xi * drawn
             given_birth := true
             given_birth_year := some year },
           BirthResult.baby (fitness_update p
             { age := 0, weight := drawn, position := s.position, fitness := 0,
               given_birth := false, given_birth_year := none,
               death_status := false, migration_status := false })) := by
    intro hc hd
    rw [give_birth, if_pos hc, hpos hd]
  have h3 : CheckBirthConditions p s N year rand drawn → drawn ≤ 0 →
      give_birth p s N year rand drawn
        = ({ s with
             weight := s.weight - p.xi * drawn
             given_birth := true
             given_birth_year := some year },
           BirthResult.error .valueError) := by
    intro hc hd
    rw [give_birth, if_pos hc, hneg hd]
  have h4 : ¬ CheckBirthConditions p s N year rand drawn →
      give_birth p s N year rand drawn
        = ({ s with given_birth := false }, BirthResult.none) := by
    intro hc
    rw [give_birth, if_neg hc]
  refine ⟨⟨?_, ?_⟩, h2, h3, h4⟩
  · rintro ⟨c, hcb⟩
    by_cases hc : CheckBirthConditions p s N year rand drawn
    · by_cases hd : 0 < drawn
      · exact ⟨hc, hd⟩
      · rw [h3 hc (by linarith [not_lt.mp hd])] at hcb
        simp at hcb
    · rw [h4 hc] at hcb
      simp at hcb
  · rintro ⟨hc, hd⟩
    exact ⟨_, by rw [h2 hc hd]⟩

/-- Witness for C2 at a concrete successful birth. -/
theorem give_birth_gates_witness :
    CheckBirthConditions herbParams birthParent 5 3 0 1 ∧
    give_birth herbParams birthParent 5 3 0 1
      = ({ birthParent with
           weight := birthParent.weight - herbParams.xi * 1
           given_birth := true
           given_birth_year := some 3 },
         BirthResult.baby (fitness_update herbParams
           { age := 0, weight := 1, position := birthParent.position, fitness := 0,
             given_birth := false, given_birth_year := none,
             death_status := false, migration_status := false })) := by
  have hc : CheckBirthConditions herbParams birthParent 5 3 0 1 := by
    refine ⟨?_, ?_, rfl, ?_⟩
    · norm_num [herbParams, birthParent, lt_min_iff]
    · norm_num [herbParams, birthParent]
    · norm_num [herbParams, birthParent]
  exact ⟨hc, (give_birth_gates herbParams birthParent 5 3 0 1).2.1 hc (by norm_num)⟩

namespace Lemmas

lemma fitnessFormula_nonneg (p : AnimalParams) (age weight : ℝ) :
    0 ≤ fitnessFormula p age weight := by
  unfold fitnessFormula
  split_ifs
  · positivity
  · exact le_rfl

lemma fitnessFormula_le_one (p : AnimalParams) (age weight : ℝ) :
    fitnessFormula p age weight ≤ 1 := by
  unfold fitnessFormula
  split_ifs
  · have e1 := Real.exp_pos (p.phi_age * (age - p.a_half))
    have e2 := Real.exp_pos (-p.phi_weight * (weight - p.w_half))
    have h1 : 1 / (1 + Real.exp (p.phi_age * (age - p.a_half))) ≤ 1 := by
      rw [div_le_one (by linarith)]; linarith
    have h2 : 1 / (1 + Real.exp (-p.phi_weight * (weight - p.w_half))) ≤ 1 := by
      rw [div_le_one (by linarith)]; linarith
    have h1' : 0 ≤ 1 / (1 + Real.exp (p.phi_age * (age - p.a_half))) := by positivity
    have h2' : 0 ≤ 1 / (1 + Real.exp (-p.phi_weight * (weight - p.w_half))) := by
      positivity
    nlinarith
  · norm_num

lemma wf_fitness_update (p : AnimalParams) (s : AnimalState)
    (hw : 0 ≤ s.weight) : AnimalWF (fitness_update p s) :=
  ⟨hw, fitnessFormula_nonneg p s.age s.weight, fitnessFormula_le_one p s.age s.weight⟩

lemma wf_update_weight_post_eat_none (p : AnimalParams) (s : AnimalState)
    (hw : 0 ≤ s.weight) (hb : 0 ≤ p.beta) (hF : 0 ≤ p.F) :
    AnimalWF (update_weight_post_eat p s none) :=
  wf_fitness_update p _ (by simpa using add_nonneg hw (mul_nonneg hb hF))

lemma wf_update_weight_post_eat_some (p : AnimalParams) (s : AnimalState)
    (f : ℝ) (hw : 0 ≤ s.weight) (hb : 0 ≤ p.beta) (hf : 0 ≤ f) :
    AnimalWF (update_weight_post_eat p s (some f)) :=
  wf_fitness_update p _ (by simpa using add_nonneg hw (mul_nonneg hb hf))

lemma check_excessive_eating_nonneg (p : AnimalParams) (wp eaten : ℝ)
    (hwp : 0 ≤ wp) (he : eaten ≤ p.F) :
    0 ≤ check_excessive_eating p wp eaten := by
  unfold check_excessive_eating
  split_ifs <;> linarith

lemma huntLoop_wf (p : AnimalParams) (hb : 0 ≤ p.beta) :
    ∀ (order : List (ℕ × AnimalState)) (s : AnimalState)
      (prey : List AnimalState) (eaten : ℝ) (draws : ℕ → ℝ) (k : ℕ),
      AnimalWF s → eaten ≤ p.F → (∀ x ∈ order, 0 ≤ (x.2 : AnimalState).weight) →
      AnimalWF ((huntLoop p s order prey eaten draws k).1) := by
  intro order
  induction order with
  | nil => intro s prey eaten draws k hs _ _; exact hs
  | cons hd rest ih =>
    intro s prey eaten draws k hs he hord
    obtain ⟨i, pr⟩ := hd
    have hpr : 0 ≤ pr.weight := hord (i, pr) (List.mem_cons_self _ _)
    have hrest : ∀ x ∈ rest, 0 ≤ (x.2 : AnimalState).weight :=
      fun x hx => hord x (List.mem_cons_of_mem _ hx)
    have hgain : 0 ≤ check_excessive_eating p pr.weight eaten :=
      check_excessive_eating_nonneg p _ _ hpr he
    have hs' : AnimalWF (update_weight_post_eat p s
        (some (check_excessive_eating p pr.weight eaten))) :=
      wf_update_weight_post_eat_some p s _ hs.1 hb hgain
    simp only [huntLoop]
    split_ifs <;>
      first
        | exact hs
        | exact hs'
        | exact ih s prey eaten draws k hs he hrest
        | exact ih s prey eaten draws (k + 1) hs he hrest
        | exact ih _ _ _ _ _ hs' (by linarith) hrest

lemma wf_markEaten (s : AnimalState) (h : AnimalWF s) : AnimalWF (markEaten s) := h

lemma huntLoop_prey_wf (p : AnimalParams) :
    ∀ (order : List (ℕ × AnimalState)) (s : AnimalState)
      (prey : List AnimalState) (eaten : ℝ) (draws : ℕ → ℝ) (k : ℕ),
      (∀ q ∈ prey, AnimalWF q) → (∀ x ∈ order, AnimalWF (x.2 : AnimalState)) →
      ∀ q ∈ ((huntLoop p s order prey eaten draws k).2.1), AnimalWF q := by
  intro order
  induction order with
  | nil => intro s prey eaten draws k hp _ q hq; exact hp q hq
  | cons hd rest ih =>
    intro s prey eaten draws k hp hord
    obtain ⟨i, pr⟩ := hd
    have hpr : AnimalWF pr := hord (i, pr) (List.mem_cons_self _ _)
    have hrest : ∀ x ∈ rest, AnimalWF (x.2 : AnimalState) :=
      fun x hx => hord x (List.mem_cons_of_mem _ hx)
    have hset : ∀ q ∈ prey.set i (markEaten pr), AnimalWF q := by
      intro q hq
      rcases List.mem_or_eq_of_mem_set hq with hq | hq
      · exact hp q hq
      · exact hq ▸ wf_markEaten pr hpr
    simp only [huntLoop]
    split_ifs <;>
      first
        | exact fun q hq => hp q hq
        | exact ih _ _ _ _ _ hp hrest
        | exact fun q hq => hset q hq
        | exact ih _ _ _ _ _ hset hrest

lemma mem_insertAscFitness {x y : ℕ × AnimalState} :
    ∀ {l : List (ℕ × AnimalState)}, y ∈ insertAscFitness x l → y = x ∨ y ∈ l := by
  intro l
  induction l with
  | nil => intro h; simpa [insertAscFitness] using h
  | cons z zs ih =>
    intro h
    unfold insertAscFitness at h
    split_ifs at h
    · rcases List.mem_cons.mp h with h | h
      · exact Or.inl h
      · exact Or.inr h
    · rcases List.mem_cons.mp h with h | h
      · exact Or.inr (List.mem_cons.mpr (Or.inl h))
      · rcases ih h with h | h
        · exact Or.inl h
        · exact Or.inr (List.mem_cons.mpr (Or.inr h))

lemma mem_sortAscFitness {y : ℕ × AnimalState} {l : List (ℕ × AnimalState)}
    (h : y ∈ sortAscFitness l) : y ∈ l := by
  suffices H : ∀ (l acc : List (ℕ × AnimalState)),
      y ∈ l.foldl (fun acc x => insertAscFitness x acc) acc → y ∈ acc ∨ y ∈ l by
    rcases H l [] h with h | h
    · simp at h
    · exact h
  intro l
  induction l with
  | nil => intro acc h; exact Or.inl h
  | cons x xs ih =>
    intro acc h
    rcases ih (insertAscFitness x acc) h with h | h
    · rcases mem_insertAscFitness h with h | h
      · exact Or.inr (List.mem_cons.mpr (Or.inl h))
      · exact Or.inl h
    · exact Or.inr (List.mem_cons.mpr (Or.inr h))

lemma snd_mem_of_mem_enum {x : ℕ × AnimalState} {l : List AnimalState}
    (h : x ∈ l.enum) : x.2 ∈ l :=
  List.get?_mem (List.mem_enum_iff_get?.mp h)

end Lemmas

/-- C1: after each organism operation — ageing, annual weight decay,
feeding weight gain (both the default-`F` and the explicit-amount form),
a death-status update, giving birth (the parent, and any offspring
produced), hunting (the hunter and every hunted prey), and the herbivore
feeding loop — weight stays non-negative and fitness stays in `[0, 1]`,
under the non-negativity side conditions that hold for the source's
parameter values and call sites. -/
theorem animal_ops_preserve_invariants (p : AnimalParams) (s : AnimalState)
    (hwf : AnimalWF s) :
    AnimalWF (age_increase p s) ∧
    AnimalWF (yearly_weight_update p s) ∧
    (0 ≤ p.beta → 0 ≤ p.F → AnimalWF (update_weight_post_eat p s none)) ∧
    (∀ f, 0 ≤ p.beta → 0 ≤ f → AnimalWF (update_weight_post_eat p s (some f))) ∧
    (∀ eaten rand, AnimalWF (update_death_status p s eaten rand)) ∧
    (∀ N year rand drawn, AnimalWF ((give_birth p s N year rand drawn).1)) ∧
    (∀ N year rand drawn c,
      (give_birth p s N year rand drawn).2 = BirthResult.baby c → AnimalWF c) ∧
    (0 ≤ p.beta → 0 ≤ p.F → ∀ prey draws k,
      (∀ q ∈ prey, 0 ≤ AnimalState.weight q) →
      AnimalWF ((hunt p s prey draws k).1)) ∧
    (∀ prey draws k, (∀ q ∈ prey, AnimalWF q) →
      ∀ q ∈ ((hunt p s prey draws k).2.1), AnimalWF q) ∧
    (0 ≤ p.beta → 0 ≤ p.F → ∀ herbs food, (∀ h ∈ herbs, AnimalWF h) →
      ∀ h' ∈ ((feedHerbLoop p herbs food).1), AnimalWF h') := by
  obtain ⟨hw, hf0, hf1⟩ := hwf
  refine ⟨?_, ?_, ?_, ?_, ?_, ?_, ?_, ?_, ?_, ?_⟩
  · exact Lemmas.wf_fitness_update p _ hw
  · refine Lemmas.wf_fitness_update p _ ?_
    show (0 : ℝ) ≤ if s.weight - p.eta * s.weight < 0 then 0 else s.weight - p.eta * s.weight
    split_ifs with h
    · exact le_rfl
    · exact not_lt.mp h
  · exact fun hb hF => Lemmas.wf_update_weight_post_eat_none p s hw hb hF
  · exact fun f hb hf => Lemmas.wf_update_weight_post_eat_some p s f hw hb hf
  · intro eaten rand
    unfold update_death_status
    split_ifs <;> exact ⟨hw, hf0, hf1⟩
  · intro N year rand drawn
    unfold give_birth
    split_ifs with hc
    · have hw' : (0 : ℝ) ≤ s.weight - p.xi * drawn := by
        have := hc.2.2.2
        linarith
      cases hinit : animalInit p 0 drawn s.position <;> simp [hinit, hw', hf0, hf1, AnimalWF]
    · exact ⟨hw, hf0, hf1⟩
  · intro N year rand drawn c hc
    unfold give_birth at hc
    split_ifs at hc with hcond
    · by_cases hd : 0 < drawn
      · rw [animalInit, if_neg (by norm_num), if_neg (by linarith)] at hc
        simp only at hc
        cases hc
        exact Lemmas.wf_fitness_update p _ (le_of_lt hd)
      · rw [animalInit, if_neg (by norm_num),
          if_pos (by linarith [not_lt.mp hd])] at hc
        simp at hc
  · intro hb hF prey draws k hprey
    refine Lemmas.huntLoop_wf p hb _ s prey 0 draws k ⟨hw, hf0, hf1⟩ hF ?_
    intro x hx
    exact hprey x.2 (Lemmas.snd_mem_of_mem_enum (Lemmas.mem_sortAscFitness hx))
  · intro prey draws k hprey
    refine Lemmas.huntLoop_prey_wf p _ s prey 0 draws k hprey ?_
    intro x hx
    exact hprey x.2 (Lemmas.snd_mem_of_mem_enum (Lemmas.mem_sortAscFitness hx))
  · intro hb hF herbs
    induction herbs with
    | nil => intro food _ h' hh'; simp [feedHerbLoop] at hh'
    | cons h hs ih =>
      intro food hwfl h' hh'
      match food with
      | none =>
        exact hwfl h' (by simpa [feedHerbLoop] using hh')
      | some f =>
        rw [feedHerbLoop] at hh'
        split_ifs at hh' with h1 h2
        · rcases hfe : feedHerbLoop p hs (some (f - p.F)) with ⟨hs', food'⟩
          rw [hfe] at hh'
          simp only [List.mem_cons] at hh'
          rcases hh' with hh' | hh'
          · subst hh'
            exact Lemmas.wf_update_weight_post_eat_none p h (hwfl h (by simp)).1 hb hF
          · have := ih (some (f - p.F)) (fun a ha => hwfl a (List.mem_cons_of_mem _ ha)) h'
            rw [hfe] at this
            exact this hh'
        · rcases hfe : feedHerbLoop p hs (some (f - f)) with ⟨hs', food'⟩
          rw [hfe] at hh'
          simp only [List.mem_cons] at hh'
          rcases hh' with hh' | hh'
          · subst hh'
            exact Lemmas.wf_update_weight_post_eat_some p h f
              (hwfl h (by simp)).1 hb (le_of_lt h2)
          · have := ih (some (f - f)) (fun a ha => hwfl a (List.mem_cons_of_mem _ ha)) h'
            rw [hfe] at this
            exact this hh'
        · exact hwfl h' hh'

/-- Witness for C1 at concrete inputs. -/
theorem animal_ops_preserve_invariants_witness :
    AnimalWF (age_increase herbParams wfState) ∧
    AnimalWF (yearly_weight_update herbParams wfState) ∧
    AnimalWF (update_weight_post_eat herbParams wfState none) ∧
    AnimalWF (update_death_status herbParams wfState false (1 / 2)) ∧
    AnimalWF ((give_birth herbParams wfState 2 0 0 5).1) ∧
    AnimalWF ((hunt carnParams hunterState [preyWeak] zeroDraws 0).1) ∧
    AnimalWF ((feedHerbLoop herbParams [wfState] (some 100)).1.headD wfState) := by
  have hwf : AnimalWF wfState := by
    refine ⟨?_, ?_, ?_⟩ <;> norm_num [AnimalWF, wfState]
  have hwfh : AnimalWF hunterState := by
    refine ⟨?_, ?_, ?_⟩ <;> norm_num [AnimalWF, hunterState]
  have main := animal_ops_preserve_invariants herbParams wfState hwf
  have mainC := animal_ops_preserve_invariants carnParams hunterState hwfh
  have hfeed : (feedHerbLoop herbParams [wfState] (some 100)).1
      = [update_weight_post_eat herbParams wfState none] := by
    rw [feedHerbLoop, if_pos (by norm_num [herbParams])]
    rfl
  refine ⟨main.1, main.2.1,
    main.2.2.1 (by norm_num [herbParams]) (by norm_num [herbParams]),
    main.2.2.2.2.1 false (1 / 2),
    main.2.2.2.2.2.1 2 0 0 5,
    mainC.2.2.2.2.2.2.2.1 (by norm_num [carnParams]) (by norm_num [carnParams])
      [preyWeak] zeroDraws 0 ?_, ?_⟩
  · intro q hq
    rw [List.mem_singleton] at hq
    subst hq
    norm_num [preyWeak]
  · have := main.2.2.2.2.2.2.2.2.2 (by norm_num [herbParams])
      (by norm_num [herbParams]) [wfState] (some 100) ?_
      (update_weight_post_eat herbParams wfState none) ?_
    · rw [hfeed]
      simpa using this
    · intro h hh
      rw [List.mem_singleton] at hh
      subst hh
      exact hwf
    · rw [hfeed]
      exact List.mem_singleton.mpr rfl

namespace Lemmas

lemma huntLoop_step_dead (p : AnimalParams) (s : AnimalState) (i : ℕ)
    (pr : AnimalState) (rest : List (ℕ × AnimalState)) (prey : List AnimalState)
    (eaten : ℝ) (draws : ℕ → ℝ) (k : ℕ) (hd : pr.death_status = true) :
    huntLoop p s ((i, pr) :: rest) prey eaten draws k
      = huntLoop p s rest prey eaten draws k := by
  simp only [huntLoop]
  rw [if_pos hd]

lemma huntLoop_step_noadv (p : AnimalParams) (s : AnimalState) (i : ℕ)
    (pr : AnimalState) (rest : List (ℕ × AnimalState)) (prey : List AnimalState)
    (eaten : ℝ) (draws : ℕ → ℝ) (k : ℕ) (hd : pr.death_status = false)
    (hfit : s.fitness ≤ pr.fitness) :
    huntLoop p s ((i, pr) :: rest) prey eaten draws k
      = huntLoop p s rest prey eaten draws k := by
  simp only [huntLoop]
  rw [if_neg (by simp [hd]), if_pos hfit]

lemma huntLoop_step_prob_kill (p : AnimalParams) (s : AnimalState) (i : ℕ)
    (pr : AnimalState) (rest : List (ℕ × AnimalState)) (prey : List AnimalState)
    (eaten : ℝ) (draws : ℕ → ℝ) (k : ℕ) (hd : pr.death_status = false)
    (hlt : pr.fitness < s.fitness)
    (hcap : s.fitness - pr.fitness < p.DeltaPhiMax)
    (hr : draws k < (s.fitness - pr.fitness) / p.DeltaPhiMax) :
    huntLoop p s ((i, pr) :: rest) prey eaten draws k
      = (if p.F ≤ eaten + pr.weight then
          (update_weight_post_eat p s
             (some (check_excessive_eating p pr.weight eaten)),
           prey.set i (markEaten pr), k + 1)
        else
          huntLoop p
            (update_weight_post_eat p s
               (some (check_excessive_eating p pr.weight eaten)))
            rest (prey.set i (markEaten pr)) (eaten + pr.weight) draws (k + 1)) := by
  simp only [huntLoop]
  rw [if_neg (by simp [hd]), if_neg (not_le.mpr hlt),
    if_pos ⟨sub_pos.mpr hlt, hcap⟩, if_pos hr]

lemma huntLoop_step_prob_miss (p : AnimalParams) (s : AnimalState) (i : ℕ)
    (pr : AnimalState) (rest : List (ℕ × AnimalState)) (prey : List AnimalState)
    (eaten : ℝ) (draws : ℕ → ℝ) (k : ℕ) (hd : pr.death_status = false)
    (hlt : pr.fitness < s.fitness)
    (hcap : s.fitness - pr.fitness < p.DeltaPhiMax)
    (hr : (s.fitness - pr.fitness) / p.DeltaPhiMax ≤ draws k) :
    huntLoop p s ((i, pr) :: rest) prey eaten draws k
      = (if p.F ≤ eaten then (s, prey, k + 1)
         else huntLoop p s rest prey eaten draws (k + 1)) := by
  simp only [huntLoop]
  rw [if_neg (by simp [hd]), if_neg (not_le.mpr hlt),
    if_pos ⟨sub_pos.mpr hlt, hcap⟩, if_neg (not_lt.mpr hr)]

lemma huntLoop_step_certain (p : AnimalParams) (s : AnimalState) (i : ℕ)
    (pr : AnimalState) (rest : List (ℕ × AnimalState)) (prey : List AnimalState)
    (eaten : ℝ) (draws : ℕ → ℝ) (k : ℕ) (hd : pr.death_status = false)
    (hlt : pr.fitness < s.fitness)
    (hcap : p.DeltaPhiMax ≤ s.fitness - pr.fitness) :
    huntLoop p s ((i, pr) :: rest) prey eaten draws k
      = (if p.F ≤ eaten + pr.weight then
          (update_weight_post_eat p s
             (some (check_excessive_eating p pr.weight eaten)),
           prey.set i (markEaten pr), k)
        else
          huntLoop p
            (update_weight_post_eat p s
               (some (check_excessive_eating p pr.weight eaten)))
            rest (prey.set i (markEaten pr)) (eaten + pr.weight) draws k) := by
  simp only [huntLoop]
  rw [if_neg (by simp [hd]), if_neg (not_le.mpr hlt),
    if_neg (fun hh => absurd hh.2 (not_lt.mpr hcap))]

lemma pairwise_insertAscFitness (x : ℕ × AnimalState) :
    ∀ (l : List (ℕ × AnimalState)),
      l.Pairwise (fun a b => a.2.fitness ≤ b.2.fitness) →
      (insertAscFitness x l).Pairwise (fun a b => a.2.fitness ≤ b.2.fitness) := by
  intro l
  induction l with
  | nil => intro _; simp [insertAscFitness]
  | cons y ys ih =>
    intro hl
    rw [List.pairwise_cons] at hl
    obtain ⟨hy, hys⟩ := hl
    unfold insertAscFitness
    split_ifs with h
    · rw [List.pairwise_cons]
      refine ⟨?_, List.pairwise_cons.mpr ⟨hy, hys⟩⟩
      intro z hz
      rcases List.mem_cons.mp hz with hz | hz
      · exact hz ▸ le_of_lt h
      · exact le_trans (le_of_lt h) (hy z hz)
    · rw [List.pairwise_cons]
      refine ⟨?_, ih hys⟩
      intro z hz
      rcases mem_insertAscFitness hz with hz | hz
      · exact hz ▸ not_lt.mp h
      · exact hy z hz

lemma pairwise_sortAscFitness (l : List (ℕ × AnimalState)) :
    (sortAscFitness l).Pairwise (fun a b => a.2.fitness ≤ b.2.fitness) := by
  suffices H : ∀ (l acc : List (ℕ × AnimalState)),
      acc.Pairwise (fun a b => a.2.fitness ≤ b.2.fitness) →
      (l.foldl (fun acc x => insertAscFitness x acc) acc).Pairwise
        (fun a b => a.2.fitness ≤ b.2.fitness) from
    H l [] (by simp)
  intro l
  induction l with
  | nil => intro acc h; exact h
  | cons x xs ih =>
    intro acc h
    exact ih (insertAscFitness x acc) (pairwise_insertAscFitness x acc h)

lemma update_weight_post_eat_weight_some (p : AnimalParams) (s : AnimalState)
    (f : ℝ) : (update_weight_post_eat p s (some f)).weight = s.weight + p.beta * f :=
  rfl

lemma check_excessive_le_sub (p : AnimalParams) (wp eaten : ℝ) :
    check_excessive_eating p wp eaten ≤ p.F - eaten := by
  unfold check_excessive_eating
  split_ifs <;> linarith

lemma check_excessive_le_wp (p : AnimalParams) (wp eaten : ℝ) :
    check_excessive_eating p wp eaten ≤ wp := by
  unfold check_excessive_eating
  split_ifs <;> linarith

lemma huntLoop_weight_bound (p : AnimalParams) (hb : 0 ≤ p.beta) :
    ∀ (order : List (ℕ × AnimalState)) (s : AnimalState)
      (prey : List AnimalState) (eaten : ℝ) (draws : ℕ → ℝ) (k : ℕ),
      eaten ≤ p.F →
      ((huntLoop p s order prey eaten draws k).1).weight
        ≤ s.weight + p.beta * (p.F - eaten) := by
  intro order
  induction order with
  | nil =>
    intro s prey eaten draws k he
    have : 0 ≤ p.beta * (p.F - eaten) := mul_nonneg hb (by linarith)
    simpa [huntLoop] using by linarith
  | cons hd rest ih =>
    intro s prey eaten draws k he
    obtain ⟨i, pr⟩ := hd
    have hgsub := check_excessive_le_sub p pr.weight eaten
    have hgwp := check_excessive_le_wp p pr.weight eaten
    have hbne : 0 ≤ p.beta * (p.F - eaten) := mul_nonneg hb (by linarith)
    simp only [huntLoop]
    split_ifs with h1 h2 h3 h4 h5 h6
    · exact ih s prey eaten draws k he
    · exact ih s prey eaten draws k he
    · rw [update_weight_post_eat_weight_some]
      have := mul_le_mul_of_nonneg_left hgsub hb
      linarith
    · have hrec := ih (update_weight_post_eat p s
          (some (check_excessive_eating p pr.weight eaten)))
        (prey.set i (markEaten pr)) (eaten + pr.weight) draws (k + 1)
        (le_of_lt (not_le.mp h5))
      rw [update_weight_post_eat_weight_some] at hrec
      have := mul_le_mul_of_nonneg_left hgwp hb
      have hexp : p.beta * (p.F - (eaten + pr.weight))
          = p.beta * (p.F - eaten) - p.beta * pr.weight := by ring
      linarith
    · linarith
    · exact ih s prey eaten draws (k + 1) he
    · rw [update_weight_post_eat_weight_some]
      have := mul_le_mul_of_nonneg_left hgsub hb
      linarith
    · have hrec := ih (update_weight_post_eat p s
          (some (check_excessive_eating p pr.weight eaten)))
        (prey.set i (markEaten pr)) (eaten + pr.weight) draws k
        (le_of_lt (not_le.mp (by assumption)))
      rw [update_weight_post_eat_weight_some] at hrec
      have := mul_le_mul_of_nonneg_left hgwp hb
      linarith

end Lemmas

/-- C3: `hunt` iterates the prey sorted in ascending fitness order (the
sorted pairing is `Pairwise`-ascending in fitness); an already-dead prey
is skipped without a draw; a predator whose fitness is at most the prey's
never kills it; with a positive fitness gap strictly below `DeltaPhiMax`
the prey is killed iff the single consumed draw is below
`gap / DeltaPhiMax`; and a gap at or above `DeltaPhiMax` kills with
certainty, consuming no draw. -/
theorem hunt_kill_rules (p : AnimalParams) (s : AnimalState) :
    (∀ (prey : List AnimalState) (draws : ℕ → ℝ) (k : ℕ),
      hunt p s prey draws k
        = huntLoop p s (sortAscFitness prey.enum) prey 0 draws k) ∧
    (∀ l : List (ℕ × AnimalState),
      (sortAscFitness l).Pairwise (fun a b => a.2.fitness ≤ b.2.fitness)) ∧
    (∀ i pr rest prey eaten draws k, pr.death_status = true →
      huntLoop p s ((i, pr) :: rest) prey eaten draws k
        = huntLoop p s rest prey eaten draws k) ∧
    (∀ i pr rest prey eaten draws k, pr.death_status = false →
      s.fitness ≤ pr.fitness →
      huntLoop p s ((i, pr) :: rest) prey eaten draws k
        = huntLoop p s rest prey eaten draws k) ∧
    (∀ i pr rest prey eaten draws k, pr.death_status = false →
      pr.fitness < s.fitness → s.fitness - pr.fitness < p.DeltaPhiMax →
      (draws k < (s.fitness - pr.fitness) / p.DeltaPhiMax →
        huntLoop p s ((i, pr) :: rest) prey eaten draws k
          = (if p.F ≤ eaten + pr.weight then
              (update_weight_post_eat p s
                 (some (check_excessive_eating p pr.weight eaten)),
               prey.set i (markEaten pr), k + 1)
            else
              huntLoop p
                (update_weight_post_eat p s
                   (some (check_excessive_eating p pr.weight eaten)))
                rest (prey.set i (markEaten pr)) (eaten + pr.weight) draws
                (k + 1))) ∧
      ((s.fitness - pr.fitness) / p.DeltaPhiMax ≤ draws k →
        huntLoop p s ((i, pr) :: rest) prey eaten draws k
          = (if p.F ≤ eaten then (s, prey, k + 1)
             else huntLoop p s rest prey eaten draws (k + 1)))) ∧
    (∀ i pr rest prey eaten draws k, pr.death_status = false →
      pr.fitness < s.fitness → p.DeltaPhiMax ≤ s.fitness - pr.fitness →
      huntLoop p s ((i, pr) :: rest) prey eaten draws k
        = (if p.F ≤ eaten + pr.weight then
            (update_weight_post_eat p s
               (some (check_excessive_eating p pr.weight eaten)),
             prey.set i (markEaten pr), k)
          else
            huntLoop p
              (update_weight_post_eat p s
                 (some (check_excessive_eating p pr.weight eaten)))
              rest (prey.set i (markEaten pr)) (eaten + pr.weight) draws k)) := by
  refine ⟨fun prey draws k => rfl, Lemmas.pairwise_sortAscFitness, ?_, ?_, ?_, ?_⟩
  · intro i pr rest prey eaten draws k hd
    exact Lemmas.huntLoop_step_dead p s i pr rest prey eaten draws k hd
  · intro i pr rest prey eaten draws k hd hfit
    exact Lemmas.huntLoop_step_noadv p s i pr rest prey eaten draws k hd hfit
  · intro i pr rest prey eaten draws k hd hlt hcap
    exact ⟨Lemmas.huntLoop_step_prob_kill p s i pr rest prey eaten draws k hd hlt hcap,
      Lemmas.huntLoop_step_prob_miss p s i pr rest prey eaten draws k hd hlt hcap⟩
  · intro i pr rest prey eaten draws k hd hlt hcap
    exact Lemmas.huntLoop_step_certain p s i pr rest prey eaten draws k hd hlt hcap

/-- Witness for C3 at concrete inputs. -/
theorem hunt_kill_rules_witness :
    huntLoop carnParams hunterState [(0, deadState)] [deadState] 0 zeroDraws 0
      = huntLoop carnParams hunterState [] [deadState] 0 zeroDraws 0 ∧
    huntLoop carnParams hunterState [(0, preyStrong)] [preyStrong] 0 zeroDraws 0
      = huntLoop carnParams hunterState [] [preyStrong] 0 zeroDraws 0 ∧
    huntLoop carnParams hunterState [(0, preyWeak)] [preyWeak] 0 zeroDraws 0
      = (if carnParams.F ≤ 0 + preyWeak.weight then
          (update_weight_post_eat carnParams hunterState
             (some (check_excessive_eating carnParams preyWeak.weight 0)),
           [preyWeak].set 0 (markEaten preyWeak), 0 + 1)
        else
          huntLoop carnParams
            (update_weight_post_eat carnParams hunterState
               (some (check_excessive_eating carnParams preyWeak.weight 0)))
            [] ([preyWeak].set 0 (markEaten preyWeak)) (0 + preyWeak.weight)
            zeroDraws (0 + 1)) ∧
    huntLoop herbParams hunterState [(0, preyWeak)] [preyWeak] 0 zeroDraws 0
      = (if herbParams.F ≤ 0 + preyWeak.weight then
          (update_weight_post_eat herbParams hunterState
             (some (check_excessive_eating herbParams preyWeak.weight 0)),
           [preyWeak].set 0 (markEaten preyWeak), 0)
        else
          huntLoop herbParams
            (update_weight_post_eat herbParams hunterState
               (some (check_excessive_eating herbParams preyWeak.weight 0)))
            [] ([preyWeak].set 0 (markEaten preyWeak)) (0 + preyWeak.weight)
            zeroDraws 0) := by
  have mainC := hunt_kill_rules carnParams hunterState
  have mainH := hunt_kill_rules herbParams hunterState
  refine ⟨mainC.2.2.1 0 deadState [] [deadState] 0 zeroDraws 0 rfl,
    mainC.2.2.2.1 0 preyStrong [] [preyStrong] 0 zeroDraws 0 rfl
      (by norm_num [hunterState, preyStrong]),
    (mainC.2.2.2.2.1 0 preyWeak [] [preyWeak] 0 zeroDraws 0 rfl
      (by norm_num [hunterState, preyWeak])
      (by norm_num [hunterState, preyWeak, carnParams])).1
      (by norm_num [hunterState, preyWeak, carnParams, zeroDraws]),
    mainH.2.2.2.2.2 0 preyWeak [] [preyWeak] 0 zeroDraws 0 rfl
      (by norm_num [hunterState, preyWeak])
      (by norm_num [hunterState, preyWeak, herbParams])⟩

/-- C4: the weight a predator gains in one `hunt` call is capped by
`beta * F` (prey weight beyond the appetite target `F` is wasted, not
banked), and once a kill pushes the cumulative intake `eaten_in_total`
to `F` or beyond, the loop breaks: the remaining sorted prey are never
processed (the result does not depend on them). -/
theorem hunt_intake_capped (p : AnimalParams) (s : AnimalState) :
    (0 ≤ p.beta → 0 ≤ p.F → ∀ prey draws k,
      ((hunt p s prey draws k).1).weight ≤ s.weight + p.beta * p.F) ∧
    (∀ i pr rest prey eaten draws k,
      pr.death_status = false → pr.fitness < s.fitness →
      (p.DeltaPhiMax ≤ s.fitness - pr.fitness ∨
        (s.fitness - pr.fitness < p.DeltaPhiMax ∧
          draws k < (s.fitness - pr.fitness) / p.DeltaPhiMax)) →
      p.F ≤ eaten + pr.weight →
      huntLoop p s ((i, pr) :: rest) prey eaten draws k
        = huntLoop p s [(i, pr)] prey eaten draws k) := by
  constructor
  · intro hb hF prey draws k
    have := Lemmas.huntLoop_weight_bound p hb (sortAscFitness prey.enum) s prey 0
      draws k hF
    rw [sub_zero] at this
    exact this
  · intro i pr rest prey eaten draws k hd hlt hcase hF
    rcases hcase with hcap | ⟨hcap, hr⟩
    · rw [Lemmas.huntLoop_step_certain p s i pr rest prey eaten draws k hd hlt hcap,
        Lemmas.huntLoop_step_certain p s i pr [] prey eaten draws k hd hlt hcap,
        if_pos hF, if_pos hF]
    · rw [Lemmas.huntLoop_step_prob_kill p s i pr rest prey eaten draws k hd hlt
        hcap hr,
        Lemmas.huntLoop_step_prob_kill p s i pr [] prey eaten draws k hd hlt
        hcap hr,
        if_pos hF, if_pos hF]

/-- Witness for C4 at concrete inputs. -/
theorem hunt_intake_capped_witness :
    ((hunt carnParams hunterState [preyWeak] zeroDraws 0).1).weight
      ≤ hunterState.weight + carnParams.beta * carnParams.F ∧
    huntLoop carnParams hunterState
        [(0, preyWeak), (1, preyStrong)] [preyWeak, preyStrong] 0 zeroDraws 0
      = huntLoop carnParams hunterState [(0, preyWeak)] [preyWeak, preyStrong] 0
          zeroDraws 0 := by
  have main := hunt_intake_capped carnParams hunterState
  refine ⟨main.1 (by norm_num [carnParams]) (by norm_num [carnParams])
      [preyWeak] zeroDraws 0, ?_⟩
  exact main.2 0 preyWeak [(1, preyStrong)] [preyWeak, preyStrong] 0 zeroDraws 0
    rfl (by norm_num [hunterState, preyWeak])
    (Or.inr ⟨by norm_num [hunterState, preyWeak, carnParams],
      by norm_num [hunterState, preyWeak, carnParams, zeroDraws]⟩)
    (by norm_num [carnParams, preyWeak])

namespace Lemmas

lemma check_chars_err_iff (m : List Char) :
    check_map_legal_characters m = .error .valueError ↔ SpecIllegalChar m := by
  unfold check_map_legal_characters SpecIllegalChar
  split_ifs with h
  · rw [List.all_eq_true] at h
    constructor
    · intro hh; exact absurd hh (by simp)
    · rintro ⟨c, hc, hne, hnin⟩
      have hmem : c ∈ m.filter (fun c => c ≠ '\n') :=
        List.mem_filter.mpr ⟨hc, by simpa using hne⟩
      exact absurd (List.mem_of_elem_eq_true (h c hmem)) hnin
  · rw [List.all_eq_true] at h
    push_neg at h
    obtain ⟨c, hcm, hcon⟩ := h
    rw [List.mem_filter] at hcm
    refine iff_of_true rfl ⟨c, hcm.1, by simpa using hcm.2, fun hmem => ?_⟩
    exact hcon (List.elem_eq_true_of_mem hmem)

lemma check_chars_cases (m : List Char) :
    check_map_legal_characters m = .ok () ∨
      check_map_legal_characters m = .error .valueError := by
  unfold check_map_legal_characters
  split_ifs <;> simp

lemma check_line_length_ok_iff (l0 : List Char) (rest : List (List Char)) :
    check_map_line_length (l0 :: rest) = .ok ()
      ↔ ∀ l ∈ rest, l.length = l0.length := by
  simp only [check_map_line_length]
  split_ifs with h
  · rw [List.all_eq_true] at h
    exact iff_of_true rfl (fun l hl => by simpa using h l hl)
  · rw [List.all_eq_true] at h
    push_neg at h
    obtain ⟨l, hl, hlen⟩ := h
    refine iff_of_false (by simp) (fun hall => hlen ?_)
    simpa using hall l hl

lemma check_line_length_err_iff (l0 : List Char) (rest : List (List Char)) :
    check_map_line_length (l0 :: rest) = .error .valueError
      ↔ ∃ l ∈ rest, l.length ≠ l0.length := by
  simp only [check_map_line_length]
  split_ifs with h
  · rw [List.all_eq_true] at h
    refine iff_of_false (by simp) ?_
    rintro ⟨l, hl, hlen⟩
    exact hlen (by simpa using h l hl)
  · rw [List.all_eq_true] at h
    push_neg at h
    obtain ⟨l, hl, hlen⟩ := h
    exact iff_of_true rfl ⟨l, hl, by simpa using hlen⟩

lemma specUnequalRows_iff (m : List Char) (l0 : List Char)
    (rest : List (List Char)) (h : pySplitlines m = l0 :: rest) :
    SpecUnequalRows m ↔ ∃ l ∈ rest, l.length ≠ l0.length := by
  unfold SpecUnequalRows
  rw [h]
  constructor
  · rintro ⟨l1, h1, l2, h2, hne⟩
    by_cases hl1 : l1.length = l0.length
    · rcases List.mem_cons.mp h2 with h2 | h2
      · subst h2
        exact absurd hl1 hne
      · exact ⟨l2, h2, fun hh => hne (hl1.trans hh.symm)⟩
    · rcases List.mem_cons.mp h1 with h1 | h1
      · exact absurd (congrArg List.length h1) hl1
      · exact ⟨l1, h1, hl1⟩
  · rintro ⟨l, hl, hne⟩
    exact ⟨l, List.mem_cons_of_mem _ hl, l0, List.mem_cons_self _ _, hne⟩

lemma rowAllWater_ok_iff (l : List Char) :
    rowAllWater l = .ok () ↔ ∀ c ∈ l, c = 'W' := by
  unfold rowAllWater
  split_ifs with h
  · rw [List.all_eq_true] at h
    exact iff_of_true rfl (fun c hc => by simpa using h c hc)
  · rw [List.all_eq_true] at h
    push_neg at h
    obtain ⟨c, hc, hcw⟩ := h
    exact iff_of_false (by simp) (fun hall => hcw (by simpa using hall c hc))

lemma rowAllWater_err_iff (l : List Char) :
    rowAllWater l = .error .valueError ↔ ∃ c ∈ l, c ≠ 'W' := by
  unfold rowAllWater
  split_ifs with h
  · rw [List.all_eq_true] at h
    refine iff_of_false (by simp) ?_
    rintro ⟨c, hc, hcw⟩
    exact hcw (by simpa using h c hc)
  · rw [List.all_eq_true] at h
    push_neg at h
    obtain ⟨c, hc, hcw⟩ := h
    exact iff_of_true rfl ⟨c, hc, by simpa using hcw⟩

lemma middleRowEdges_spec :
    ∀ (ls : List (List Char)), (∀ l ∈ ls, l ≠ []) →
      (middleRowEdges ls = .ok () ∨ middleRowEdges ls = .error .valueError) ∧
      (middleRowEdges ls = .error .valueError ↔
        ∃ l ∈ ls, (l.head? ≠ some 'W' ∨ l.getLast? ≠ some 'W')) := by
  intro ls
  induction ls with
  | nil =>
    intro _
    refine ⟨Or.inl rfl, iff_of_false (by simp [middleRowEdges]) (by simp)⟩
  | cons l ls ih =>
    intro hne
    have hl : l ≠ [] := hne l (List.mem_cons_self _ _)
    obtain ⟨c, t, rfl⟩ : ∃ c t, l = c :: t := by
      cases l with
      | nil => exact absurd rfl hl
      | cons c t => exact ⟨c, t, rfl⟩
    obtain ⟨x, hx⟩ : ∃ x, (c :: t).getLast? = some x :=
      ⟨(c :: t).getLast (by simp), List.getLast?_eq_getLast _ (by simp)⟩
    have hrest := ih (fun a ha => hne a (List.mem_cons_of_mem _ ha))
    have hgd : (c :: t).getLastD 'W' = x := by
      rw [List.getLastD_eq_getLast?, hx]
      rfl
    simp only [middleRowEdges]
    split_ifs with h1 h2
    · refine ⟨Or.inr rfl, iff_of_true rfl ⟨c :: t, List.mem_cons_self _ _, ?_⟩⟩
      exact Or.inl (by simpa using h1)
    · refine ⟨Or.inr rfl, iff_of_true rfl ⟨c :: t, List.mem_cons_self _ _, ?_⟩⟩
      rw [hgd] at h2
      exact Or.inr (by rw [hx]; simpa using h2)
    · push_neg at h1
      rw [hgd] at h2
      push_neg at h2
      refine ⟨hrest.1, hrest.2.trans ?_⟩
      constructor
      · rintro ⟨a, ha, hbad⟩
        exact ⟨a, List.mem_cons_of_mem _ ha, hbad⟩
      · rintro ⟨a, ha, hbad⟩
        rcases List.mem_cons.mp ha with ha | ha
        · subst ha
          rcases hbad with hbad | hbad
          · exact absurd (by simp [h1]) hbad
          · exact absurd (by rw [hx, h2]) hbad
        · exact ⟨a, ha, hbad⟩

lemma rowAllWater_cases (l : List Char) :
    rowAllWater l = .ok () ∨ rowAllWater l = .error .valueError := by
  unfold rowAllWater
  split_ifs <;> simp

lemma check_map_edges_err_iff (l0 : List Char) (rest : List (List Char))
    (hne : ∀ l ∈ (l0 :: rest : List (List Char)), l ≠ []) :
    check_map_edges (l0 :: rest) = .error .valueError ↔
      ((∃ c ∈ l0, c ≠ 'W') ∨ (∃ c ∈ rest.getLastD l0, c ≠ 'W') ∨
        ∃ l ∈ (l0 :: rest).dropLast.drop 1,
          (l.head? ≠ some 'W' ∨ l.getLast? ≠ some 'W')) := by
  have hmidne : ∀ l ∈ (l0 :: rest).dropLast.drop 1, l ≠ [] :=
    fun l hl => hne l (List.dropLast_subset _ (List.drop_subset _ _ hl))
  have hmid := middleRowEdges_spec _ hmidne
  simp only [check_map_edges]
  rcases rowAllWater_cases l0 with h0 | h0 <;> rw [h0]
  · rcases rowAllWater_cases (rest.getLastD l0) with hL | hL <;> rw [hL]
    · rw [hmid.2]
      have hh0 : ¬ ∃ c ∈ l0, c ≠ 'W' := fun hh => by
        have := (rowAllWater_err_iff l0).mpr hh
        rw [h0] at this
        exact Except.noConfusion this
      have hhL : ¬ ∃ c ∈ rest.getLastD l0, c ≠ 'W' := fun hh => by
        have := (rowAllWater_err_iff _).mpr hh
        rw [hL] at this
        exact Except.noConfusion this
      constructor
      · intro hh
        exact Or.inr (Or.inr hh)
      · rintro (hh | hh | hh)
        · exact absurd hh hh0
        · exact absurd hh hhL
        · exact hh
    · exact iff_of_true rfl (Or.inr (Or.inl ((rowAllWater_err_iff _).mp hL)))
  · exact iff_of_true rfl (Or.inl ((rowAllWater_err_iff _).mp h0))

lemma getLastD_all_nil :
    ∀ (L : List (List Char)) (d : List Char), (∀ l ∈ L, l = []) → d = [] →
      L.getLastD d = []
  | [], _, _, hd => hd
  | a :: as, d, h, _ =>
    by
      rw [List.getLastD_cons]
      exact getLastD_all_nil as a (fun l hl => h l (List.mem_cons_of_mem _ hl))
        (h a (List.mem_cons_self _ _))

lemma middleRowEdges_all_nil :
    ∀ (ls : List (List Char)), (∀ l ∈ ls, l = []) →
      middleRowEdges ls ≠ .error .valueError
  | [], _ => by simp [middleRowEdges]
  | l :: ls, h => by
    have hl : l = [] := h l (List.mem_cons_self _ _)
    subst hl
    simp [middleRowEdges]

lemma check_map_edges_empty_rows (l0 : List Char) (rest : List (List Char))
    (h0 : l0 = []) (hrest : ∀ l ∈ rest, l = []) :
    check_map_edges (l0 :: rest) ≠ .error .valueError := by
  subst h0
  have hlast : rest.getLastD ([] : List Char) = [] :=
    getLastD_all_nil rest [] hrest rfl
  have hmidnil : ∀ l ∈ (([] : List Char) :: rest).dropLast.drop 1, l = [] := by
    intro l hl
    rcases List.mem_cons.mp
        (List.dropLast_subset _ (List.drop_subset _ _ hl)) with hl | hl
    · exact hl
    · exact hrest l hl
  simp only [check_map_edges, hlast]
  have hok : rowAllWater ([] : List Char) = .ok () := rfl
  rw [hok]
  exact middleRowEdges_all_nil _ hmidnil

lemma specBadBorder_false_nil (m : List Char) (h : pySplitlines m = []) :
    ¬ SpecBadBorder m := by
  unfold SpecBadBorder
  rw [h]
  simp

lemma specBadBorder_false_empty (m : List Char) (l0 : List Char)
    (rest : List (List Char)) (hlines : pySplitlines m = l0 :: rest)
    (h0 : l0 = []) (hrest : ∀ l ∈ rest, l = []) : ¬ SpecBadBorder m := by
  unfold SpecBadBorder
  rw [hlines]
  subst h0
  have hlast : (([] : List Char) :: rest).getLastD [] = [] := by
    rw [List.getLastD_cons]
    exact getLastD_all_nil rest [] hrest rfl
  rw [hlast]
  simp only [List.headD_cons]
  rintro (⟨c, hc, _⟩ | ⟨c, hc, _⟩ | ⟨l, hl, hbad⟩)
  · exact List.not_mem_nil c hc
  · exact List.not_mem_nil c hc
  · have hlnil : l = [] := by
      rcases List.mem_cons.mp
          (List.dropLast_subset _ (List.drop_subset _ _ hl)) with hh | hh
      · exact hh
      · exact hrest l hh
    rcases hbad with ⟨_, hne⟩ | ⟨_, hne⟩ <;> exact hne hlnil

lemma specBadBorder_iff_edges (m : List Char) (l0 : List Char)
    (rest : List (List Char)) (hlines : pySplitlines m = l0 :: rest)
    (hne : ∀ l ∈ (l0 :: rest : List (List Char)), l ≠ []) :
    SpecBadBorder m ↔
      ((∃ c ∈ l0, c ≠ 'W') ∨ (∃ c ∈ rest.getLastD l0, c ≠ 'W') ∨
        ∃ l ∈ (l0 :: rest).dropLast.drop 1,
          (l.head? ≠ some 'W' ∨ l.getLast? ≠ some 'W')) := by
  unfold SpecBadBorder
  rw [hlines, List.getLastD_cons]
  simp only [List.headD_cons]
  have hmidne : ∀ l ∈ (l0 :: rest).dropLast.drop 1, l ≠ [] :=
    fun l hl => hne l (List.dropLast_subset _ (List.drop_subset _ _ hl))
  constructor
  · rintro (hh | hh | ⟨l, hl, hbad⟩)
    · exact Or.inl hh
    · exact Or.inr (Or.inl hh)
    · refine Or.inr (Or.inr ⟨l, hl, ?_⟩)
      rcases hbad with ⟨hb, _⟩ | ⟨hb, _⟩
      · exact Or.inl hb
      · exact Or.inr hb
  · rintro (hh | hh | ⟨l, hl, hbad⟩)
    · exact Or.inl hh
    · exact Or.inr (Or.inl hh)
    · refine Or.inr (Or.inr ⟨l, hl, ?_⟩)
      rcases hbad with hb | hb
      · exact Or.inl ⟨hb, hmidne l hl⟩
      · exact Or.inr ⟨hb, hmidne l hl⟩

end Lemmas

/-- C8: `build_island` raises `ValueError` if and only if the layout has
an unrecognised landscape character, rows of unequal length, or a border
cell that is not Water; and concretely, the 3×3 all-water-border layout
with one passable interior cell passes validation while the layout with a
passable border cell fails with `ValueError`.  (A missing first line is an
`IndexError`, not a `ValueError`, consistent with the iff.) -/
theorem build_island_validation :
    (∀ m : List Char, build_island m = .error .valueError ↔
      (SpecIllegalChar m ∨ SpecUnequalRows m ∨ SpecBadBorder m)) ∧
    build_island mapAllWaterBorder = .ok () ∧
    build_island mapPassableBorder = .error .valueError := by
  refine ⟨?_, rfl, rfl⟩
  intro m
  simp only [build_island]
  rcases Lemmas.check_chars_cases m with h1 | h1 <;> rw [h1]
  · have hnspec1 : ¬ SpecIllegalChar m := fun hs => by
      have := (Lemmas.check_chars_err_iff m).mpr hs
      rw [h1] at this
      exact Except.noConfusion this
    cases hlines : pySplitlines m with
    | nil =>
      refine iff_of_false (fun hh => by simp [check_map_line_length] at hh) ?_
      rintro (hs | hs | hs)
      · exact hnspec1 hs
      · obtain ⟨l1, hl1, -⟩ := hs
        rw [hlines] at hl1
        exact List.not_mem_nil l1 hl1
      · exact Lemmas.specBadBorder_false_nil m hlines hs
    | cons l0 rest =>
      by_cases h2 : ∀ l ∈ rest, l.length = l0.length
      · rw [(Lemmas.check_line_length_ok_iff l0 rest).mpr h2]
        have hnspec2 : ¬ SpecUnequalRows m := fun hs => by
          obtain ⟨l, hl, hlen⟩ := (Lemmas.specUnequalRows_iff m l0 rest hlines).mp hs
          exact hlen (h2 l hl)
        by_cases hk : l0.length = 0
        · have h0 : l0 = [] := List.length_eq_zero.mp hk
          have hrest : ∀ l ∈ rest, l = [] := fun l hl =>
            List.length_eq_zero.mp ((h2 l hl).trans hk)
          refine iff_of_false (Lemmas.check_map_edges_empty_rows l0 rest h0 hrest) ?_
          rintro (hs | hs | hs)
          · exact hnspec1 hs
          · exact hnspec2 hs
          · exact Lemmas.specBadBorder_false_empty m l0 rest hlines h0 hrest hs
        · have hne : ∀ l ∈ (l0 :: rest : List (List Char)), l ≠ [] := by
            intro l hl hlnil
            rcases List.mem_cons.mp hl with hl | hl
            · exact hk (by rw [← hl, hlnil]; rfl)
            · exact hk (by rw [← h2 l hl, hlnil]; rfl)
          rw [Lemmas.check_map_edges_err_iff l0 rest hne,
            ← Lemmas.specBadBorder_iff_edges m l0 rest hlines hne]
          constructor
          · exact fun hh => Or.inr (Or.inr hh)
          · rintro (hs | hs | hs)
            · exact absurd hs hnspec1
            · exact absurd hs hnspec2
            · exact hs
      · have hex : ∃ l ∈ rest, l.length ≠ l0.length := by
          push_neg at h2
          exact h2
        rw [(Lemmas.check_line_length_err_iff l0 rest).mpr hex]
        exact iff_of_true rfl (Or.inr (Or.inl
          ((Lemmas.specUnequalRows_iff m l0 rest hlines).mpr hex)))
  · exact iff_of_true rfl (Or.inl ((Lemmas.check_chars_err_iff m).mp h1))

end Biosim
